/-
  Verification of the DOCX table-structure analyzer `step2_analyze_docx.py`.

  This file shallowly embeds the analyzer's core pipeline in Lean 4:
  text normalization and the value-type classifier, key-value extraction,
  checkbox symbol mapping, the table-grid parser over an XML element model,
  the vertical-merge resolver, the section-inference engine and the
  column-schema builder; and proves/refutes the frozen specification claims
  about them.

  Modelling conventions (documented inline where they apply):
  - Python `str` is Lean `String`, operated on through `String.data`
    (`List Char`).  Character classes from the source's regexes are modelled
    over their ASCII ranges (plus the Persian/Arabic-Indic digit blocks that
    the source explicitly transliterates); Python's wider Unicode classes
    for `\d`, `\s`, `\w`, `str.lower` and `str.isdigit` coincide with the
    model on every string the analyzer's claims and fixtures exercise.
  - Python `int()` on attribute strings is fallible; it is modelled as an
    `Option Int` producer, and functions that call it return `Except`.
  - Python floats only appear in `0.6 * n` (truncated to int) and
    `round(x, 3)`; they are modelled as exact rationals: `int(0.6*n)` as
    `6*n/10` in `Nat`, and `round(x,3)` as half-up rounding to a
    thousandth (the values reached in the claims are never half-way ties,
    where float rounding could differ).
-/
import Mathlib

namespace Docx

/-! ## Python character primitives -/

/-- Python `\s` / `str.strip` whitespace, restricted to the ASCII range
(the source never manipulates non-ASCII whitespace). -/
def pyIsSpace (c : Char) : Bool :=
  c = ' ' || c = '\t' || c = '\n' || c = '\r' || c = '\x0b' || c = '\x0c'

/-- Python `\d` (ASCII range; used after digit transliteration). -/
def isPyDigit (c : Char) : Bool :=
  '0' ≤ c && c ≤ '9'

/-- Regex class `[A-Za-z]`. -/
def isPyAlpha (c : Char) : Bool :=
  ('a' ≤ c && c ≤ 'z') || ('A' ≤ c && c ≤ 'Z')

/-- Regex class `\w` (ASCII range). -/
def isWordChar (c : Char) : Bool :=
  isPyAlpha c || isPyDigit c || c = '_'

/-- Python `str.lower` on one character (ASCII case mapping). -/
def pyLowerChar (c : Char) : Char :=
  if 'A' ≤ c && c ≤ 'Z' then Char.ofNat (c.toNat + 32) else c

/-- Python `str.upper` on one character (ASCII case mapping). -/
def pyUpperChar (c : Char) : Char :=
  if 'a' ≤ c && c ≤ 'z' then Char.ofNat (c.toNat - 32) else c

def pyLower (s : String) : String := ⟨s.data.map pyLowerChar⟩

def pyUpper (s : String) : String := ⟨s.data.map pyUpperChar⟩

/-- Model of `str.maketrans` table of lines 20-25: Persian (U+06F0..U+06F9) and
Arabic-Indic (U+0660..U+0669) digits map to ASCII digits. -/
def asciiDigitOf (c : Char) : Char :=
  if '۰' ≤ c && c ≤ '۹' then Char.ofNat ('0'.toNat + (c.toNat - '۰'.toNat))
  else if '٠' ≤ c && c ≤ '٩' then Char.ofNat ('0'.toNat + (c.toNat - '٠'.toNat))
  else c

/-- Model of `to_ascii_digits` (line 41). -/
def to_ascii_digits (s : String) : String := ⟨s.data.map asciiDigitOf⟩

/-! ## Whitespace normalization -/

/-- Python `str.split()` (split on whitespace runs, dropping empties),
as an accumulator recursion over the characters. -/
def splitWsAux : List Char → List Char → List (List Char)
  | [], acc => if acc.isEmpty then [] else [acc.reverse]
  | c :: cs, acc =>
    if pyIsSpace c then
      if acc.isEmpty then splitWsAux cs [] else acc.reverse :: splitWsAux cs []
    else splitWsAux cs (c :: acc)

def pySplitWords (l : List Char) : List (List Char) := splitWsAux l []

/-- Model of `" ".join(words)` over character lists. -/
def joinWords : List (List Char) → List Char
  | [] => []
  | [w] => w
  | w :: ws => w ++ ' ' :: joinWords ws

/-- Model of `normalize_space` (lines 37-38): `re.sub(r"\s+", " ", text).strip()`,
which is exactly `" ".join(text.split())`. -/
def normalizeSpaceL (l : List Char) : List Char :=
  joinWords (pySplitWords l)

def normalize_space (s : String) : String := ⟨normalizeSpaceL s.data⟩

/-- Python `str.strip()` over the character list. -/
def pyStripL (l : List Char) : List Char :=
  ((l.dropWhile pyIsSpace).reverse.dropWhile pyIsSpace).reverse

def pyStrip (s : String) : String := ⟨pyStripL s.data⟩

/-! ## Leading-run counters used by the regex shape models -/

def countLeadingDigits : List Char → Nat
  | [] => 0
  | c :: cs => if isPyDigit c then countLeadingDigits cs + 1 else 0

def countLeadingAlpha : List Char → Nat
  | [] => 0
  | c :: cs => if isPyAlpha c then countLeadingAlpha cs + 1 else 0

def countLeadingSpaces : List Char → Nat
  | [] => 0
  | c :: cs => if pyIsSpace c then countLeadingSpaces cs + 1 else 0

/-- Decidable "starts with" on character lists. -/
def startsWithL : List Char → List Char → Bool
  | [], _ => true
  | _ :: _, [] => false
  | a :: as, b :: bs => a = b && startsWithL as bs

/-- Try a predicate at every suffix (regex `search` start positions). -/
def anyTailL (p : List Char → Bool) : List Char → Bool
  | [] => p []
  | c :: cs => p (c :: cs) || anyTailL p cs

/-- Python `str.endswith` via reversed `startsWithL`. -/
def strEndsWith (s suffix : String) : Bool :=
  startsWithL suffix.data.reverse s.data.reverse

/-- Python `in` on strings (substring containment). -/
def containsSub (hay pat : String) : Bool :=
  anyTailL (startsWithL pat.data) hay.data

/-! ## Regex models (module constants, lines 27-34) -/

def isDateSep (c : Char) : Bool := c = '/' || c = '-'

/-- Model of `DATE_RE` (line 27): digits{1,4}, separator, digits{1,2}, separator,
digits{1,4}, fully anchored, where a separator is a slash or a dash.  The
separators are non-digits, so the regex's bounded quantifiers are
equivalent to counting each maximal digit run. -/
def dateShapeL (l : List Char) : Bool :=
  let d1 := countLeadingDigits l
  if d1 < 1 || 4 < d1 then false else
  match l.drop d1 with
  | [] => false
  | s1 :: r1 =>
    if !isDateSep s1 then false else
    let d2 := countLeadingDigits r1
    if d2 < 1 || 2 < d2 then false else
    match r1.drop d2 with
    | [] => false
    | s2 :: r2 =>
      if !isDateSep s2 then false else
      let d3 := countLeadingDigits r2
      if d3 < 1 || 4 < d3 then false else (r2.drop d3).isEmpty

def dateMatch (s : String) : Bool := dateShapeL s.data

/-- Model of `INT_RE = ^[+-]?\d+$` (line 28). -/
def intMatchL : List Char → Bool
  | [] => false
  | c :: cs =>
    let body := if c = '+' || c = '-' then cs else c :: cs
    !body.isEmpty && body.all isPyDigit

def intMatch (s : String) : Bool := intMatchL s.data

/-- Model of `FLOAT_RE = ^[+-]?\d+[.,]\d+$` (line 29). -/
def floatMatchL (l : List Char) : Bool :=
  let body := match l with
    | c :: cs => if c = '+' || c = '-' then cs else l
    | [] => l
  let d1 := countLeadingDigits body
  if d1 < 1 then false else
  match body.drop d1 with
  | p :: rest => (p = '.' || p = ',') && !rest.isEmpty && rest.all isPyDigit
  | [] => false

def floatMatch (s : String) : Bool := floatMatchL s.data

/-- Word-boundary `\b` between a matched last character and the rest of the
input: it holds when exactly one side is a `\w` character (string edges
count as non-word). -/
def boundaryAfter (lastChar : Char) (rest : List Char) : Bool :=
  match rest with
  | [] => isWordChar lastChar
  | c :: _ => isWordChar lastChar != isWordChar c

/-- Unit alternation of `MEASUREMENT_RE` (line 31), in pattern order.  No
unit is a proper prefix of another, so at most one alternative can match at
a given position and the alternation order is immaterial. -/
def measUnits : List (List Char) :=
  [[ 'm', 'm' ], [ 'c', 'm' ], [ 'u', 'm' ], [ 'µ', 'm' ], [ 'n', 'm' ],
   [ 'h', 'r', 'c' ], [ 'h', 'v' ], [ 'k', 'g' ], [ 'g' ], [ '%' ]]

/-- Model of `MEASUREMENT_RE` body `\d+\s*(unit)\b` anchored at the head of `l`
(which is already lower-cased for the IGNORECASE flag). -/
def measHereL (l : List Char) : Bool :=
  let d := countLeadingDigits l
  if d < 1 then false else
  let r1 := l.drop d
  let w := countLeadingSpaces r1
  let r2 := r1.drop w
  measUnits.any (fun u =>
    startsWithL u r2 && boundaryAfter (u.getLastD ' ') (r2.drop u.length))

/-- Model of `MEASUREMENT_RE.search` (IGNORECASE modelled by lower-casing first). -/
def measSearch (s : String) : Bool :=
  anyTailL measHereL (pyLower s).data

/-- Model of `CODE_RE` (line 32): 1-8 Latin letters, optional spaces, an optional
dash-or-slash, optional spaces, then a digit followed by word characters,
dots, slashes or dashes, fully anchored.  Each quantifier is followed by a
disjoint character class, so greedy maximal munch is equivalent to the
backtracking regex. -/
def codeMatchL (l : List Char) : Bool :=
  let a := countLeadingAlpha l
  if a < 1 || 8 < a then false else
  let r1 := l.drop a
  let r2 := r1.drop (countLeadingSpaces r1)
  let r3 := match r2 with
    | c :: cs => if c = '-' || c = '/' then cs else r2
    | [] => r2
  let r4 := r3.drop (countLeadingSpaces r3)
  match r4 with
  | c :: cs => isPyDigit c && cs.all (fun x => isWordChar x || x = '.' || x = '/' || x = '-')
  | [] => false

def codeMatch (s : String) : Bool := codeMatchL s.data

/-- One alternative of `RANGE_RE` (line 30) anchored at the head of the
(lower-cased) input: `<=`, `>=`, `max`, `min`, `±`, `[+-]\s*\d`, ` to `
or `~`. -/
def rangeHereL (l : List Char) : Bool :=
  [[ '<', '=' ], [ '>', '=' ], [ 'm', 'a', 'x' ], [ 'm', 'i', 'n' ],
   [ '±' ], [ ' ', 't', 'o', ' ' ], [ '~' ]].any (fun pat => startsWithL pat l)
  || (match l with
      | c :: cs =>
        (c = '+' || c = '-') &&
          (match cs.drop (countLeadingSpaces cs) with
           | d :: _ => isPyDigit d
           | [] => false)
      | [] => false)

/-- Model of `RANGE_RE.search` (IGNORECASE modelled by lower-casing first). -/
def rangeSearch (s : String) : Bool :=
  anyTailL rangeHereL (pyLower s).data

/-- Model of `SINGLE_LATIN_RE = ^[A-Za-z]$` (line 33). -/
def singleLatinMatch (s : String) : Bool :=
  match s.data with
  | [c] => isPyAlpha c
  | _ => false

/-- Model of `PLACEHOLDER_VALUES` (line 34). -/
def PLACEHOLDER_VALUES : List String :=
  ["-", "--", "---", "_", "*", "N/A", "n/a", "NA", "na"]

/-! ## The value type classifier (`infer_text_type`, lines 126-153)

The eleven tests, named and in source order.  Each takes the raw cell value
and performs the same normalization pipeline as the source (`normalized`,
`ascii_digits`, `lower` are recomputed rather than let-bound, which is
semantically identical). -/

def testEmpty (value : String) : Bool := normalize_space value = ""

def testPlaceholder (value : String) : Bool :=
  PLACEHOLDER_VALUES.contains (normalize_space value)

def testBoolean (value : String) : Bool :=
  ["true", "false", "yes", "no"].contains
    (pyLower (to_ascii_digits (normalize_space value)))

def testDate (value : String) : Bool :=
  dateMatch (to_ascii_digits (normalize_space value))

def testMeasurement (value : String) : Bool :=
  measSearch (to_ascii_digits (normalize_space value))

def testInteger (value : String) : Bool :=
  intMatch (to_ascii_digits (normalize_space value))

def testFloat (value : String) : Bool :=
  floatMatch (to_ascii_digits (normalize_space value))

def testCode (value : String) : Bool :=
  codeMatch (to_ascii_digits (normalize_space value))

def testRange (value : String) : Bool :=
  rangeSearch (to_ascii_digits (normalize_space value)) &&
    (to_ascii_digits (normalize_space value)).data.any isPyDigit

def testEnum (value : String) : Bool :=
  singleLatinMatch (to_ascii_digits (normalize_space value))

/-- Model of `infer_text_type` (lines 126-153): the fixed-priority if-chain. -/
def infer_text_type (value : String) : String :=
  if testEmpty value then ("empty")
  else if testPlaceholder value then ("placeholder")
  else if testBoolean value then ("boolean")
  else if testDate value then ("date")
  else if testMeasurement value then ("measurement")
  else if testInteger value then ("integer")
  else if testFloat value then ("float")
  else if testCode value then ("code")
  else if testRange value then ("range_or_tolerance")
  else if testEnum value then ("enum")
  else ("text")

/-- The classifier's tag/test table in its declared priority order,
with the unconditional `text` fallback last. -/
def classifierSteps : List (String × (String → Bool)) :=
  [("empty", testEmpty), ("placeholder", testPlaceholder),
   ("boolean", testBoolean), ("date", testDate),
   ("measurement", testMeasurement), ("integer", testInteger),
   ("float", testFloat), ("code", testCode),
   ("range_or_tolerance", testRange), ("enum", testEnum),
   ("text", fun _ => true)]

/-- First-match-wins evaluation of the tag table. -/
def firstMatchTag (value : String) : String :=
  ((classifierSteps.find? (fun step => step.2 value)).map (fun step => step.1)).getD ("text")

/-! ## Key-value extraction (`extract_key_values`, lines 108-123) -/

structure KeyValue where
  key : String
  value : String
  deriving DecidableEq, Repr

/-- Python `str.splitlines` restricted to the line endings the analyzer
produces (`extract_text` joins with LF): LF, CR and CRLF; no trailing
empty line after a trailing terminator. -/
def splitlinesAux : List Char → List Char → List (List Char)
  | [], acc => [acc.reverse]
  | [c], acc =>
    if c = '\r' || c = '\n' then [acc.reverse] else [(c :: acc).reverse]
  | c :: c2 :: cs, acc =>
    if c = '\r' && c2 = '\n' then
      acc.reverse :: (if cs.isEmpty then [] else splitlinesAux cs [])
    else if c = '\r' || c = '\n' then
      acc.reverse :: splitlinesAux (c2 :: cs) []
    else splitlinesAux (c2 :: cs) (c :: acc)

def pySplitlines (s : String) : List (List Char) :=
  if s.data.isEmpty then [] else splitlinesAux s.data []

/-- Python `str.find` for a single character: position of the first
occurrence, if any. -/
def findPos (c : Char) : List Char → Option Nat
  | [] => none
  | x :: xs => if x = c then some 0 else (findPos c xs).map (· + 1)

/-- Lines 110-122, acting on one raw line: normalize, collect the find
positions of the half-width and full-width colon that are strictly
positive, split at their minimum, strip both sides, keep if the key is
non-empty. -/
def keyValueOfLine (rawLine : List Char) : Option KeyValue :=
  let line := normalizeSpaceL rawLine
  if line.isEmpty then none
  else
    let colonPositions :=
      ([findPos ':' line, findPos '：' line].filterMap id).filter (fun p => 0 < p)
    match colonPositions with
    | [] => none
    | p :: rest =>
      let splitAt := rest.foldl min p
      let key := pyStripL (line.take splitAt)
      let value := pyStripL (line.drop (splitAt + 1))
      if key.isEmpty then none else some ⟨⟨key⟩, ⟨value⟩⟩

/-- Model of `extract_key_values` (lines 108-123). -/
def extract_key_values (text : String) : List KeyValue :=
  (pySplitlines text).filterMap keyValueOfLine

/-! ## Checkbox symbols (lines 73-105) -/

/-- Model of `normalize_symbol_char` (lines 73-77): strip, uppercase, drop a
leading "0X". -/
def normalize_symbol_char (symbol_char : String) : String :=
  let code := pyUpper (pyStrip symbol_char)
  if startsWithL [ '0', 'X' ] code.data then ⟨code.data.drop 2⟩ else code

/-- Model of `checkbox_state_for_symbol` (lines 80-88). -/
def checkbox_state_for_symbol (font symbol_char : String) : Option Bool :=
  if !containsSub (pyLower font) "wingdings 2" then none
  else
    let code := normalize_symbol_char symbol_char
    if strEndsWith code ("A2") then some true
    else if strEndsWith code ("A3") then some false
    else none

structure Symbol where
  font : String
  char : String
  checkbox_state : Option Bool
  is_checkbox_symbol : Bool
  deriving DecidableEq, Repr

/-! ## XML element model

`xml.etree.ElementTree` elements as consumed by the analyzer: a tag, an
attribute list, optional text content, and child elements.  Tags and
attribute names are stored in their namespace-qualified form, abbreviated
`w:local` for the wordprocessingml namespace the source matches against.
Element tails are never read by the analyzer and are omitted. -/

inductive XElem where
  | mk (tag : String) (attrs : List (String × String)) (text : Option String)
       (children : List XElem)

def XElem.tag : XElem → String
  | .mk t _ _ _ => t

def XElem.attrs : XElem → List (String × String)
  | .mk _ a _ _ => a

def XElem.text : XElem → Option String
  | .mk _ _ t _ => t

def XElem.children : XElem → List XElem
  | .mk _ _ _ c => c

/-- Attribute lookup (`element.attrib.get(name)`). -/
def getAttr (e : XElem) (name : String) : Option String :=
  (e.attrs.find? (fun p => p.1 = name)).map (fun p => p.2)

/-- Model of `element.findall("./tag")`: direct children with the given tag. -/
def childrenTagged (tag : String) (e : XElem) : List XElem :=
  e.children.filter (fun c => c.tag = tag)

/-- Model of `element.find("./tag")`: first direct child with the given tag. -/
def findChild (tag : String) (e : XElem) : Option XElem :=
  e.children.find? (fun c => c.tag = tag)

mutual

/-- All proper descendants of an element in document (preorder) order. -/
def descendantsE : XElem → List XElem
  | .mk _ _ _ cs => descendantsL cs

def descendantsL : List XElem → List XElem
  | [] => []
  | c :: cs => c :: (descendantsE c ++ descendantsL cs)

end

/-- Model of `element.findall(".//tag")`: descendants with the given tag, in
document order. -/
def descendantsTagged (tag : String) (e : XElem) : List XElem :=
  (descendantsE e).filter (fun c => c.tag = tag)

/-- Model of `element.iter()`: the element itself followed by its descendants. -/
def iterAll (e : XElem) : List XElem :=
  e :: descendantsE e

/-- The text-run parts gathered inside one paragraph (lines 54-62):
`w:t` text content, a tab for `w:tab`, a newline for `w:br`. -/
def paragraphParts (p : XElem) : List String :=
  (iterAll p).filterMap (fun node =>
    if node.tag = "w:t" then some (node.text.getD (""))
    else if node.tag = "w:tab" then some ("\t")
    else if node.tag = "w:br" then some ("\n")
    else none)

/-- Model of `extract_text` (lines 51-70). -/
def extract_text (element : XElem) : String :=
  let lines := (descendantsTagged ("w:p") element).filterMap (fun p =>
    let paragraphText := pyStrip (String.join (paragraphParts p))
    if paragraphText.data.isEmpty then none else some paragraphText)
  if !lines.isEmpty then
    pyStrip (String.intercalate ("\n") lines)
  else
    pyStrip (String.join ((descendantsTagged ("w:t") element).map
      (fun t => t.text.getD (""))))

/-- Model of `extract_symbols` (lines 91-105). -/
def extract_symbols (element : XElem) : List Symbol :=
  (descendantsTagged ("w:sym") element).map (fun symbol =>
    let font := pyStrip ((getAttr symbol ("w:font")).getD (""))
    let symbolChar := pyStrip ((getAttr symbol ("w:char")).getD (""))
    let state := checkbox_state_for_symbol font symbolChar
    { font := font
      char := normalize_symbol_char symbolChar
      checkbox_state := state
      is_checkbox_symbol := state.isSome })

/-! ## Grid cell model (the per-cell dictionaries of `parse_table`) -/

structure Cell where
  row_index : Nat
  cell_index : Nat
  col_start : Int
  col_end : Int
  col_span : Int
  v_merge : Option String
  width_twips : Option Int
  row_span : Nat
  merge_anchor_row : Option Nat
  text : String
  text_lines : List String
  symbols : List Symbol
  key_values : List KeyValue
  inferred_type : String
  contains_drawing : Bool
  deriving DecidableEq, Repr, Inhabited

structure Row where
  row_index : Nat
  grid_before : Int
  cell_count : Nat
  cells : List Cell
  total_col_span : Int
  non_empty_cell_count : Nat
  symbol_count : Nat
  checkbox_count : Nat
  deriving DecidableEq, Repr, Inhabited

/-- The `infer_table_sections` result.  The source returns a dictionary;
on the empty-row early exit (lines 186-194) the source's dictionary omits
`dominant_pattern_rows`, `dominant_contiguous_group` and
`layout_start_row`, which this structure fills with `[]`/`0`. -/
structure Sections where
  dominant_row_pattern : List Int
  dominant_pattern_count : Nat
  dominant_pattern_rows : List Nat
  dominant_contiguous_group : List Nat
  layout_start_row : Nat
  metadata_rows : List Nat
  header_rows : List Nat
  data_rows : List Nat
  confidence : ℚ
  deriving DecidableEq, Repr, Inhabited

/-! ## Data-signal heuristic (`has_data_signal`, lines 156-170) -/

def numericLikeTags : List String :=
  ["integer", "float", "date", "measurement", "range_or_tolerance", "code"]

def has_data_signal (row : Row) : Bool :=
  let values := row.cells.filterMap (fun cell =>
    if !(normalize_space cell.text).data.isEmpty &&
        !(infer_text_type cell.text == "placeholder") then
      some (normalize_space cell.text)
    else none)
  if values.length < 2 then false
  else
    let inferredTypes := values.map infer_text_type
    1 ≤ inferredTypes.countP (fun t => numericLikeTags.contains t)

/-! ## Section inference (`infer_table_sections`, lines 173-234),
decomposed into one definition per local variable of the source. -/

/-- Model of `enumerate` with a starting index. -/
def enumIdx : Nat → List α → List (Nat × α)
  | _, [] => []
  | i, x :: xs => (i, x) :: enumIdx (i + 1) xs

/-- Model of `longest_contiguous_group`'s grouping loop (lines 176-181): split an
index list into runs of consecutive values.  The accumulator holds the
current group reversed. -/
def contigGroupsGo : List Nat → List Nat → List (List Nat)
  | [], cur => [cur.reverse]
  | y :: ys, cur =>
    if y = cur.headD 0 + 1 then contigGroupsGo ys (y :: cur)
    else cur.reverse :: contigGroupsGo ys [y]

def contigGroups : List Nat → List (List Nat)
  | [] => []
  | x :: xs => contigGroupsGo xs [x]

/-- Python `max(groups, key=len)`: the first group of maximal length. -/
def maxByLen (groups : List (List Nat)) : List Nat :=
  match groups with
  | [] => []
  | g :: gs => gs.foldl (fun best x => if best.length < x.length then x else best) g

/-- Model of `longest_contiguous_group` (lines 173-182). -/
def longest_contiguous_group (indices : List Nat) : List Nat :=
  match indices with
  | [] => []
  | _ => maxByLen (contigGroups indices)

def rowPattern (row : Row) : List Int :=
  row.cells.map (fun c => c.col_span)

def rowPatterns (rows : List Row) : List (List Int) :=
  rows.map rowPattern

/-- Model of `Counter(patterns).most_common(1)[0][0]`: the first pattern (in order
of first occurrence) whose count is maximal. -/
def dominantPatternOf (rows : List Row) : List Int :=
  let pats := rowPatterns rows
  pats.foldl (fun best p => if pats.count best < pats.count p then p else best)
    (pats.headD [])

def dominantCountOf (rows : List Row) : Nat :=
  (rowPatterns rows).count (dominantPatternOf rows)

/-- Line 199: indices of the rows matching the dominant pattern. -/
def dominantRowsOf (rows : List Row) : List Nat :=
  (enumIdx 0 (rowPatterns rows)).filterMap (fun p =>
    if p.2 = dominantPatternOf rows then some p.1 else none)

def dominantGroupOf (rows : List Row) : List Nat :=
  longest_contiguous_group (dominantRowsOf rows)

/-- Line 202: `max(8, int(len(dominant_pattern) * 0.6))`.  The float
product `n * 0.6` truncated to int equals `6*n/10` in natural division for
every table-sized `n`. -/
def denseThreshold (pat : List Int) : Nat :=
  max 8 (pat.length * 6 / 10)

/-- Model of `next((idx for idx, x in enumerate(l) if p x), default)` helper. -/
def findIdxFrom (p : α → Bool) : List α → Nat → Option Nat
  | [], _ => none
  | x :: xs, i => if p x then some i else findIdxFrom p xs (i + 1)

/-- Lines 203-206: the layout start row. -/
def layoutStartOf (rows : List Row) : Nat :=
  (findIdxFrom
      (fun r => denseThreshold (dominantPatternOf rows) ≤ r.cells.length)
      rows 0).getD
    ((dominantGroupOf rows).headD 0)

/-- Lines 208-214: the data start row. -/
def dataStartOf (rows : List Row) : Nat :=
  match (dominantGroupOf rows).find? (fun idx => has_data_signal (rows.getD idx default)) with
  | some idx => idx
  | none => (dominantGroupOf rows).headD (layoutStartOf rows)

/-- Line 222: `round(min(1.0, count / len), 3)` computed exactly in
thousandths of a unit: the min clamps at 1 (i.e. 1000 thousandths), and
for `count < len` the half-up rounding of `1000 * count / len` is the
integer division `(2000 * count + len) / (2 * len)`.  (The Python float
rounding agrees with this exact rational on every non-tie value.) -/
def confidenceMilli (count len : Nat) : Nat :=
  if len ≤ count then 1000 else (2000 * count + len) / (2 * len)

/-- Model of `infer_table_sections` (lines 185-234). -/
def infer_table_sections (rows : List Row) : Sections :=
  if rows.isEmpty then
    { dominant_row_pattern := [], dominant_pattern_count := 0,
      dominant_pattern_rows := [], dominant_contiguous_group := [],
      layout_start_row := 0, metadata_rows := [], header_rows := [],
      data_rows := [], confidence := 0 }
  else
    let dominantGroup := dominantGroupOf rows
    let layoutStart := layoutStartOf rows
    let dataStart := dataStartOf rows
    { dominant_row_pattern := dominantPatternOf rows
      dominant_pattern_count := dominantCountOf rows
      dominant_pattern_rows := dominantRowsOf rows
      dominant_contiguous_group := dominantGroup
      layout_start_row := layoutStart
      metadata_rows := List.range (min layoutStart rows.length)
      header_rows :=
        if layoutStart < dataStart then List.range' layoutStart (dataStart - layoutStart)
        else []
      data_rows := dominantGroup.filter (fun idx => dataStart ≤ idx)
      confidence := mkRat (confidenceMilli (dominantCountOf rows) rows.length) 1000 }

/-! ## Vertical merge resolution (`annotate_vertical_merges`, lines
261-294).  The source mutates `row_span`/`merge_anchor_row` in place while
only ever reading `col_start`, `col_span` and `v_merge` (never written),
so it is modelled as a pure transformation computed from the input rows. -/

def cellSlot (c : Cell) : Int × Int := (c.col_start, c.col_span)

/-- The `by_row_slot` dict of lines 262-267: keyed insertion means a later
cell with the same slot overwrites an earlier one, so lookup returns the
last matching cell of the row. -/
def slotLookup (row : Row) (s : Int × Int) : Option Cell :=
  (row.cells.filter (fun c => cellSlot c = s)).getLast?

def isCont (c : Cell) : Bool := c.v_merge = some ("continue")

def lookupSlotAt (rows : List Row) (i : Nat) (s : Int × Int) : Option Cell :=
  (rows.get? i).bind (fun r => slotLookup r s)

/-- Lines 273-280: scan upward from row `i - 1` for the anchor of a
`continue` cell; stop unanchored when the slot disappears. -/
def findAnchorFrom (rows : List Row) (s : Int × Int) : Nat → Option Nat
  | 0 => none
  | k + 1 =>
    match lookupSlotAt rows k s with
    | none => none
    | some c => if isCont c then findAnchorFrom rows s k else some k

/-- Lines 285-292: count the contiguous `continue` cells at the same slot
from row `j` downward (fuel bounds the scan; `rows.length` suffices). -/
def contBelow (rows : List Row) (s : Int × Int) : Nat → Nat → Nat
  | _, 0 => 0
  | j, fuel + 1 =>
    match lookupSlotAt rows j s with
    | none => 0
    | some c => if isCont c then 1 + contBelow rows s (j + 1) fuel else 0

def contiguousContinuesBelow (rows : List Row) (s : Int × Int) (j : Nat) : Nat :=
  contBelow rows s j rows.length

def rowSpanDown (rows : List Row) (i : Nat) (s : Int × Int) : Nat :=
  1 + contiguousContinuesBelow rows s (i + 1)

/-- The per-cell update of the resolver's main loop (lines 269-294). -/
def transformCell (rows : List Row) (i : Nat) (c : Cell) : Cell :=
  if isCont c then
    { c with merge_anchor_row := findAnchorFrom rows (cellSlot c) i, row_span := 0 }
  else
    let span := rowSpanDown rows i (cellSlot c)
    { c with merge_anchor_row := if 1 < span then some i else none, row_span := span }

def transformRow (rows : List Row) (i : Nat) (row : Row) : Row :=
  { row with cells := row.cells.map (transformCell rows i) }

def annotateGo (all : List Row) : List Row → Nat → List Row
  | [], _ => []
  | r :: rest, i => transformRow all i r :: annotateGo all rest (i + 1)

def annotate_vertical_merges (rows : List Row) : List Row :=
  annotateGo rows rows 0

/-! ## Column schema (`infer_column_schema`, lines 297-395) -/

/-- Model of `slot_overlap` (lines 297-302). -/
def slot_overlap (cellA cellB : Int × Int) : Bool :=
  max cellA.1 cellB.1 ≤ min (cellA.1 + cellA.2 - 1) (cellB.1 + cellB.2 - 1)

/-- Model of `collect_header_fragments` (lines 305-318). -/
def collect_header_fragments (rows : List Row) (headerRows : List Nat)
    (slot : Int × Int) : List String :=
  headerRows.foldl (fun fragments rowIndex =>
    ((rows.getD rowIndex default).cells.foldl (fun fragments cell =>
      if slot_overlap slot (cellSlot cell) then
        let text := normalize_space cell.text
        if !text.data.isEmpty && !fragments.contains text then fragments ++ [text]
        else fragments
      else fragments) fragments)) []

/-- Model of `find_cell_by_slot` (lines 321-325). -/
def find_cell_by_slot (cells : List Cell) (slot : Int × Int) : Option Cell :=
  cells.find? (fun c => c.col_start = slot.1 && c.col_span = slot.2)

/-- An insertion-ordered counter (`collections.Counter` as used here:
items are iterated in first-insertion order). -/
def bumpCount (l : List (String × Nat)) (k : String) : List (String × Nat) :=
  match l with
  | [] => [(k, 1)]
  | (k2, n) :: rest => if k2 = k then (k2, n + 1) :: rest else (k2, n) :: bumpCount rest k

/-- Model of `Counter.most_common(1)[0][0]` over the insertion-ordered counter:
first key of maximal count. -/
def mostCommonKey (l : List (String × Nat)) : Option String :=
  match l with
  | [] => none
  | p :: rest => some (rest.foldl (fun best q => if best.2 < q.2 then q else best) p).1

structure ColumnProfile where
  column_index : Nat
  col_start : Int
  col_end : Int
  col_span : Int
  header_fragments : List String
  header_label : String
  dominant_value_type : String
  value_type_distribution : List (String × Nat)
  sample_values : List String
  empty_cell_count : Nat
  placeholder_count : Nat
  has_checkbox : Bool
  checkbox_checked : Nat
  checkbox_unchecked : Nat
  deriving DecidableEq, Repr, Inhabited

structure ColAgg where
  value_type_distribution : List (String × Nat)
  sample_values : List String
  empty_cell_count : Nat
  placeholder_count : Nat
  checkbox_checked : Nat
  checkbox_unchecked : Nat
  deriving Repr, Inhabited

/-- The inner data-row loop of `infer_column_schema` (lines 348-368) for
one column slot. -/
def colAggStep (rows : List Row) (slot : Int × Int) (maxSampleValues : Nat)
    (agg : ColAgg) (rowIndex : Nat) : ColAgg :=
  match find_cell_by_slot (rows.getD rowIndex default).cells slot with
  | none => agg
  | some rowCell =>
    let value := normalize_space rowCell.text
    let agg :=
      if !value.data.isEmpty then
        let valueType := infer_text_type value
        { agg with
          sample_values :=
            if !agg.sample_values.contains value &&
                agg.sample_values.length < maxSampleValues then
              agg.sample_values ++ [value]
            else agg.sample_values
          value_type_distribution := bumpCount agg.value_type_distribution valueType
          placeholder_count :=
            if valueType = "placeholder" then agg.placeholder_count + 1
            else agg.placeholder_count }
      else { agg with empty_cell_count := agg.empty_cell_count + 1 }
    rowCell.symbols.foldl (fun agg symbol =>
      match symbol.checkbox_state with
      | some true => { agg with checkbox_checked := agg.checkbox_checked + 1 }
      | some false => { agg with checkbox_unchecked := agg.checkbox_unchecked + 1 }
      | none => agg) agg

/-- Model of `infer_column_schema` (lines 328-395); `max_sample_values` is the
source's keyword default 8, passed explicitly. -/
def infer_column_schema (rows : List Row) (sections : Sections)
    (maxSampleValues : Nat) : List ColumnProfile :=
  let dataRows := sections.data_rows
  let headerRows := sections.header_rows
  match dataRows with
  | [] => []
  | firstDataRow :: _ =>
    let templateRow := rows.getD firstDataRow default
    (enumIdx 0 templateRow.cells).map (fun p =>
      let slot := cellSlot p.2
      let agg := dataRows.foldl (colAggStep rows slot maxSampleValues)
        { value_type_distribution := [], sample_values := [],
          empty_cell_count := 0, placeholder_count := 0,
          checkbox_checked := 0, checkbox_unchecked := 0 }
      let headerFragments := collect_header_fragments rows headerRows slot
      { column_index := p.1
        col_start := slot.1
        col_end := slot.1 + slot.2 - 1
        col_span := slot.2
        header_fragments := headerFragments
        header_label := String.intercalate (" | ") headerFragments
        dominant_value_type := (mostCommonKey agg.value_type_distribution).getD ("empty")
        value_type_distribution := agg.value_type_distribution
        sample_values := agg.sample_values
        empty_cell_count := agg.empty_cell_count
        placeholder_count := agg.placeholder_count
        has_checkbox := 0 < agg.checkbox_checked + agg.checkbox_unchecked
        checkbox_checked := agg.checkbox_checked
        checkbox_unchecked := agg.checkbox_unchecked })

/-! ## Label candidates (`extract_label_candidates`, lines 237-258) -/

/-- Model of `re.split` on runs of two or more whitespace characters; `pending`
holds the (reversed) run of whitespace seen since the last
non-whitespace character, `acc` the (reversed) current piece. -/
def splitWs2Go : List Char → List Char → List Char → List (List Char)
  | [], pending, acc =>
    if 2 ≤ pending.length then [acc.reverse, []]
    else [(pending ++ acc).reverse]
  | c :: cs, pending, acc =>
    if pyIsSpace c then splitWs2Go cs (c :: pending) acc
    else if 2 ≤ pending.length then acc.reverse :: splitWs2Go cs [] [c]
    else splitWs2Go cs [] (c :: (pending ++ acc))

/-- Model of `re.split` on runs of one or more pipe-or-slash characters. -/
def splitPipeSlashGo : List Char → Bool → List Char → List (List Char)
  | [], _, acc => [acc.reverse]
  | c :: cs, inRun, acc =>
    if c = '|' || c = '/' then
      if inRun then splitPipeSlashGo cs true acc
      else acc.reverse :: splitPipeSlashGo cs true []
    else splitPipeSlashGo cs false (c :: acc)

/-- Normalize the split pieces and drop the blank ones (lines 245-251). -/
def normalizedPieces (pieces : List (List Char)) : List String :=
  pieces.filterMap (fun piece =>
    let np := normalizeSpaceL piece
    if np.isEmpty then none else some ⟨np⟩)

/-- Model of `extract_label_candidates` (lines 237-258). -/
def extract_label_candidates (text : String) (expectedCount : Nat) : List String :=
  if expectedCount = 0 then []
  else
    let candidates := (pySplitlines text).foldl (fun cands rawLine =>
      let line := pyStripL rawLine
      if line.isEmpty then cands
      else
        let parts := normalizedPieces (splitWs2Go line [] [])
        let parts :=
          if parts.length = 1 then
            let slashParts := normalizedPieces (splitPipeSlashGo line false [])
            if 1 < slashParts.length then slashParts else parts
          else parts
        cands ++ parts) []
    if expectedCount ≤ candidates.length then candidates.take expectedCount
    else candidates

/-! ## Table parsing (`parse_table`, lines 398-536).  The source performs
unguarded `int()` conversions on `gridCol` widths, `gridBefore` and
`gridSpan` values; a non-numeric value raises `ValueError`, modelled as
`Except.error`. -/

def digitsVal (l : List Char) : Nat :=
  l.foldl (fun acc c => acc * 10 + (c.toNat - '0'.toNat)) 0

/-- Python `int(s)` on a string: optional surrounding whitespace, optional
sign, then ASCII digits (the analyzer's attribute values never use the
underscore or non-ASCII digit forms `int` would additionally accept). -/
def pyInt (s : String) : Option Int :=
  let t := pyStripL s.data
  match t with
  | '+' :: rest =>
    if !rest.isEmpty && rest.all isPyDigit then some (digitsVal rest) else none
  | '-' :: rest =>
    if !rest.isEmpty && rest.all isPyDigit then some (-(digitsVal rest : Int)) else none
  | rest =>
    if !rest.isEmpty && rest.all isPyDigit then some (digitsVal rest) else none

/-- Model of `int(attr_value or default)`: a missing attribute takes the string
default, an empty string the int default (both equal), any other string
goes through `int()` and may raise. -/
def intOrDefault (attr : Option String) (dflt : Int) : Except String Int :=
  match attr with
  | none => .ok dflt
  | some s =>
    if s.data.isEmpty then .ok dflt
    else
      match pyInt s with
      | some v => .ok v
      | none => .error ("invalid literal for int() with base 10: " ++ s)

/-- Lines 417-423: the cell's `gridSpan` (default 1). -/
def cellColSpan (tc : XElem) : Except String Int :=
  match findChild ("w:tcPr") tc with
  | none => .ok 1
  | some tcPr =>
    match findChild ("w:gridSpan") tcPr with
    | none => .ok 1
    | some el => intOrDefault (getAttr el ("w:val")) 1

/-- Lines 424-426: the cell's `vMerge` marker (attribute default
"continue" when the element is present without a value). -/
def cellVMerge (tc : XElem) : Option String :=
  (findChild ("w:tcPr") tc).bind (fun tcPr =>
    (findChild ("w:vMerge") tcPr).map (fun el => (getAttr el ("w:val")).getD ("continue")))

/-- Lines 427-431: the cell width, only when the attribute is all digits. -/
def cellWidthTwips (tc : XElem) : Option Int :=
  (findChild ("w:tcPr") tc).bind (fun tcPr =>
    (findChild ("w:tcW") tcPr).bind (fun el =>
      match getAttr el ("w:w") with
      | some w =>
        if !w.data.isEmpty && w.data.all isPyDigit then some ((digitsVal w.data : Int))
        else none
      | none => none))

/-- Lines 415-456: parse one cell element at the current column cursor. -/
def parseCell (tc : XElem) (rowIndex cellIndex : Nat) (cursor : Int) :
    Except String Cell :=
  match cellColSpan tc with
  | .error e => .error e
  | .ok colSpan =>
  let text := extract_text tc
  .ok {
    row_index := rowIndex
    cell_index := cellIndex
    col_start := cursor
    col_end := cursor + colSpan - 1
    col_span := colSpan
    v_merge := cellVMerge tc
    width_twips := cellWidthTwips tc
    row_span := 1
    merge_anchor_row := none
    text := text
    text_lines := (pySplitlines text).filterMap (fun l =>
      if (pyStripL l).isEmpty then none else some ⟨l⟩)
    symbols := extract_symbols tc
    key_values := extract_key_values text
    inferred_type := infer_text_type text
    contains_drawing := !(descendantsTagged ("w:drawing") tc).isEmpty }

/-- The cell loop of lines 414-456, advancing the cursor by each parsed
cell's span. -/
def buildCells (rowIndex : Nat) : List XElem → Int → Nat → Except String (List Cell)
  | [], _, _ => .ok []
  | tc :: rest, cursor, cellIndex =>
    match parseCell tc rowIndex cellIndex cursor with
    | .error e => .error e
    | .ok cell =>
      match buildCells rowIndex rest (cursor + cell.col_span) (cellIndex + 1) with
      | .error e => .error e
      | .ok cells => .ok (cell :: cells)

/-- Lines 406-411: the row's leading `gridBefore` skip (default 0). -/
def rowGridBefore (tr : XElem) : Except String Int :=
  match findChild ("w:trPr") tr with
  | none => .ok 0
  | some trPr =>
    match findChild ("w:gridBefore") trPr with
    | none => .ok 0
    | some el => intOrDefault (getAttr el ("w:val")) 0

/-- Lines 405-474: parse one row element with its aggregates. -/
def parseRow (tr : XElem) (rowIndex : Nat) : Except String Row :=
  match rowGridBefore tr with
  | .error e => .error e
  | .ok gridBefore =>
  match buildCells rowIndex (childrenTagged ("w:tc") tr) gridBefore 0 with
  | .error e => .error e
  | .ok cells =>
  .ok {
    row_index := rowIndex
    grid_before := gridBefore
    cell_count := cells.length
    cells := cells
    total_col_span := gridBefore + (cells.map (fun c => c.col_span)).sum
    non_empty_cell_count := cells.countP (fun c => !(normalize_space c.text).data.isEmpty)
    symbol_count := (cells.map (fun c => c.symbols.length)).sum
    checkbox_count := (cells.map (fun c =>
      c.symbols.countP (fun s => s.is_checkbox_symbol))).sum }

def parseRowsFrom : List XElem → Nat → Except String (List Row)
  | [], _ => .ok []
  | tr :: rest, i =>
    match parseRow tr i with
    | .error e => .error e
    | .ok row =>
      match parseRowsFrom rest (i + 1) with
      | .error e => .error e
      | .ok rows => .ok (row :: rows)

/-- Lines 399-402: the declared grid-column widths. -/
def parseGridColumns (tbl : XElem) : Except String (List Int) :=
  ((childrenTagged ("w:tblGrid") tbl).flatMap (childrenTagged ("w:gridCol"))).mapM
    (fun gridCol => intOrDefault (getAttr gridCol ("w:w")) 0)

structure CheckboxField where
  table_index : Nat
  row_index : Nat
  col_start : Int
  col_span : Int
  symbol_index_in_cell : Nat
  font : String
  char : String
  checked : Option Bool
  label_candidate : Option String
  cell_text : String
  deriving DecidableEq, Repr

structure KeyValueField where
  table_index : Nat
  row_index : Nat
  col_start : Int
  col_span : Int
  key : String
  value : String
  value_type : String
  deriving DecidableEq, Repr

/-- Lines 483-497: the key-value field list of one table. -/
def tableKeyValueFields (tableIndex : Nat) (rows : List Row) : List KeyValueField :=
  rows.flatMap (fun row => row.cells.flatMap (fun cell =>
    cell.key_values.map (fun kv =>
      { table_index := tableIndex
        row_index := row.row_index
        col_start := cell.col_start
        col_span := cell.col_span
        key := kv.key
        value := kv.value
        value_type := infer_text_type kv.value })))

/-- Lines 499-520: the checkbox field list of one table. -/
def tableCheckboxFields (tableIndex : Nat) (rows : List Row) : List CheckboxField :=
  rows.flatMap (fun row => row.cells.flatMap (fun cell =>
    let checkboxSymbols := cell.symbols.filter (fun s => s.is_checkbox_symbol)
    if checkboxSymbols.isEmpty then []
    else
      let labelCandidates := extract_label_candidates cell.text checkboxSymbols.length
      (enumIdx 0 checkboxSymbols).map (fun p =>
        { table_index := tableIndex
          row_index := row.row_index
          col_start := cell.col_start
          col_span := cell.col_span
          symbol_index_in_cell := p.1
          font := p.2.font
          char := p.2.char
          checked := p.2.checkbox_state
          label_candidate := labelCandidates.get? p.1
          cell_text := normalize_space cell.text })))

def inferredTypeHistogram (rows : List Row) : List (String × Nat) :=
  rows.foldl (fun h row =>
    row.cells.foldl (fun h cell => bumpCount h cell.inferred_type) h) []

/-- Python `max(iterable, default=0)`. -/
def maxD [LinearOrder α] (l : List α) (d : α) : α :=
  match l with
  | [] => d
  | x :: xs => xs.foldl max x

structure Table where
  table_index : Nat
  body_block_index : Nat
  row_count : Nat
  grid_column_count : Nat
  grid_column_widths_twips : List Int
  max_total_col_span : Int
  max_cell_count : Nat
  rows : List Row
  sections : Sections
  column_schema : List ColumnProfile
  checkbox_fields : List CheckboxField
  key_value_fields : List KeyValueField
  inferred_type_histogram : List (String × Nat)
  deriving DecidableEq, Repr

/-- Model of `parse_table` (lines 398-536). -/
def parse_table (tableElement : XElem) (tableIndex bodyBlockIndex : Nat) :
    Except String Table :=
  match parseGridColumns tableElement with
  | .error e => .error e
  | .ok gridColumns =>
  match parseRowsFrom (childrenTagged ("w:tr") tableElement) 0 with
  | .error e => .error e
  | .ok rows0 =>
  let rows := annotate_vertical_merges rows0
  let sections := infer_table_sections rows
  let columnSchema := infer_column_schema rows sections 8
  .ok {
    table_index := tableIndex
    body_block_index := bodyBlockIndex
    row_count := rows.length
    grid_column_count := gridColumns.length
    grid_column_widths_twips := gridColumns
    max_total_col_span := maxD (rows.map (fun r => r.total_col_span)) 0
    max_cell_count := maxD (rows.map (fun r => r.cell_count)) 0
    rows := rows
    sections := sections
    column_schema := columnSchema
    checkbox_fields := tableCheckboxFields tableIndex rows
    key_value_fields := tableKeyValueFields tableIndex rows
    inferred_type_histogram := inferredTypeHistogram rows }

/-! ## Concrete fixture builders (used by counterexamples and witnesses) -/

/-- A plain cell as `parse_table` would produce it: no merges, no symbols,
derived text fields computed by the embedded pipeline. -/
def mkCell (rowIndex cellIndex : Nat) (colStart colSpan : Int) (vm : Option String)
    (t : String) : Cell :=
  { row_index := rowIndex, cell_index := cellIndex, col_start := colStart,
    col_end := colStart + colSpan - 1, col_span := colSpan, v_merge := vm,
    width_twips := none, row_span := 1, merge_anchor_row := none, text := t,
    text_lines := (pySplitlines t).filterMap (fun l =>
      if (pyStripL l).isEmpty then none else some ⟨l⟩),
    symbols := [], key_values := extract_key_values t,
    inferred_type := infer_text_type t, contains_drawing := false }

/-- A row over given cells with the aggregates `parse_table` computes. -/
def mkRow (rowIndex : Nat) (cells : List Cell) : Row :=
  { row_index := rowIndex, grid_before := 0, cell_count := cells.length,
    cells := cells,
    total_col_span := (cells.map (fun c => c.col_span)).sum,
    non_empty_cell_count := cells.countP (fun c => !(normalize_space c.text).data.isEmpty),
    symbol_count := (cells.map (fun c => c.symbols.length)).sum,
    checkbox_count := (cells.map (fun c =>
      c.symbols.countP (fun s => s.is_checkbox_symbol))).sum }

/-- XML element without text content. -/
def xe (tag : String) (attrs : List (String × String)) (children : List XElem) : XElem :=
  .mk tag attrs none children

/-- A `w:t` text node. -/
def xt (s : String) : XElem := .mk "w:t" [] (some s) []

/-- A table cell element containing one paragraph of text. -/
def tcPlain (t : String) : XElem :=
  xe ("w:tc") [] [xe ("w:p") [] [xe ("w:r") [] [xt t]]]

/-- A table cell element with an explicit `gridSpan` value. -/
def tcSpan (sp t : String) : XElem :=
  xe ("w:tc") []
    [xe ("w:tcPr") [] [xe ("w:gridSpan") [("w:val", sp)] []],
     xe ("w:p") [] [xe ("w:r") [] [xt t]]]

/-! ## Claim C4: classifier priority order and examples -/

/-- Claim C4: `infer_text_type` tests its eleven tags in the fixed priority
order empty, placeholder, boolean, date, measurement, integer, float, code,
range_or_tolerance, enum, text, first match winning (it always equals the
first-match evaluation of the ordered tag table), and the quoted examples
classify as stated: "-" placeholder, "12.5" float, Arabic-Indic "۱۲"
integer, "A" enum, "AB-123" code, "2024/01/15" date, "" empty. -/
theorem claim_C4 :
    (∀ value : String, infer_text_type value = firstMatchTag value) ∧
    infer_text_type ("-") = "placeholder" ∧
    infer_text_type ("12.5") = "float" ∧
    infer_text_type ("۱۲") = "integer" ∧
    infer_text_type ("A") = "enum" ∧
    infer_text_type ("AB-123") = "code" ∧
    infer_text_type ("2024/01/15") = "date" ∧
    infer_text_type ("") = "empty" := by
  refine ⟨fun v => ?_, by decide, by decide, by decide, by decide, by decide,
    by decide, by decide⟩
  simp only [firstMatchTag, classifierSteps, List.find?_cons]
  simp only [infer_text_type]
  by_cases h1 : testEmpty v = true <;> simp [h1] <;>
  by_cases h2 : testPlaceholder v = true <;> simp [h2] <;>
  by_cases h3 : testBoolean v = true <;> simp [h3] <;>
  by_cases h4 : testDate v = true <;> simp [h4] <;>
  by_cases h5 : testMeasurement v = true <;> simp [h5] <;>
  by_cases h6 : testInteger v = true <;> simp [h6] <;>
  by_cases h7 : testFloat v = true <;> simp [h7] <;>
  by_cases h8 : testCode v = true <;> simp [h8] <;>
  by_cases h9 : testRange v = true <;> simp [h9] <;>
  by_cases h10 : testEnum v = true <;> simp [h10]

/-! ## Claim C9: checkbox symbol mapping -/

/-- A character list cannot start with both '2' and '3'. -/
theorem startsWith_head {a : Char} {as l : List Char}
    (h : startsWithL (a :: as) l = true) : ∃ t, l = a :: t := by
  cases l with
  | nil => simp [startsWithL] at h
  | cons b t =>
    simp only [startsWithL, Bool.and_eq_true, decide_eq_true_eq] at h
    exact ⟨t, by rw [h.1]⟩

/-- No string ends with both "A2" and "A3". -/
theorem not_ends_A2_A3 (s : String)
    (h2 : strEndsWith s ("A2") = true) (h3 : strEndsWith s ("A3") = true) :
    False := by
  unfold strEndsWith at h2 h3
  have e2 : (("A2" : String)).data.reverse = ['2', 'A'] := rfl
  have e3 : (("A3" : String)).data.reverse = ['3', 'A'] := rfl
  rw [e2] at h2
  rw [e3] at h3
  obtain ⟨t2, ht2⟩ := startsWith_head h2
  obtain ⟨t3, ht3⟩ := startsWith_head h3
  rw [ht2] at ht3
  exact absurd (List.head_eq_of_cons_eq ht3) (by decide)

/-- Claim C9: `checkbox_state_for_symbol` returns checked exactly when the
font contains "wingdings 2" case-insensitively and the normalized code ends
with "A2"; unchecked exactly when the font condition holds and the code
ends with "A3"; and no checkbox state otherwise (wrong font, or any other
code under that font). -/
theorem claim_C9 : ∀ font symbol_char : String,
    (checkbox_state_for_symbol font symbol_char = some true ↔
      (containsSub (pyLower font) ("wingdings 2") = true ∧
       strEndsWith (normalize_symbol_char symbol_char) ("A2") = true)) ∧
    (checkbox_state_for_symbol font symbol_char = some false ↔
      (containsSub (pyLower font) ("wingdings 2") = true ∧
       strEndsWith (normalize_symbol_char symbol_char) ("A3") = true)) ∧
    (checkbox_state_for_symbol font symbol_char = none ↔
      (containsSub (pyLower font) ("wingdings 2") = false ∨
       (strEndsWith (normalize_symbol_char symbol_char) ("A2") = false ∧
        strEndsWith (normalize_symbol_char symbol_char) ("A3") = false))) := by
  intro font sc
  unfold checkbox_state_for_symbol
  by_cases hf : containsSub (pyLower font) ("wingdings 2") = true
  · by_cases h2 : strEndsWith (normalize_symbol_char sc) ("A2") = true
    · have h3 : strEndsWith (normalize_symbol_char sc) ("A3") = false := by
        cases h3 : strEndsWith (normalize_symbol_char sc) ("A3")
        · rfl
        · exact absurd (not_ends_A2_A3 _ h2 h3) (fun k => k)
      simp [hf, h2, h3]
    · by_cases h3 : strEndsWith (normalize_symbol_char sc) ("A3") = true
      · simp [hf, h2, h3]
      · simp [hf, h2, h3]
  · simp at hf
    simp [hf]

/-! ## Claim C6: placeholder tokens -/

/-- Claim C6 counterexample: the claim says every casing of "n/a"
classifies as placeholder, naming "N/a" explicitly; but the source's
placeholder set only contains "N/A", "n/a", "NA", "na", and the mixed
casing "N/a" falls through every tag to "text". -/
theorem claim_C6_counterexample :
    infer_text_type ("N/a") = "text" ∧ infer_text_type ("N/a") ≠ "placeholder" := by
  decide

/-- Claim C6 (amended): after whitespace normalization, the exact tokens of
the placeholder set - single/double/triple dash, underscore, asterisk, and
the four cased forms "N/A", "n/a", "NA", "na" of "n/a" - classify as
placeholder; other casings of "n/a" (such as "N/a" and "n/A") do not. -/
theorem claim_C6_amended :
    infer_text_type ("-") = "placeholder" ∧
    infer_text_type ("--") = "placeholder" ∧
    infer_text_type ("---") = "placeholder" ∧
    infer_text_type ("_") = "placeholder" ∧
    infer_text_type ("*") = "placeholder" ∧
    infer_text_type ("N/A") = "placeholder" ∧
    infer_text_type ("n/a") = "placeholder" ∧
    infer_text_type ("NA") = "placeholder" ∧
    infer_text_type ("na") = "placeholder" ∧
    infer_text_type (" n/a ") = "placeholder" ∧
    infer_text_type ("n/A") = "text" := by
  decide

/-! ## Claim C5: the date shape -/

/-- Modelled from the spec's words for claim C5 (refinement comparison
only): a date shape whose three segments each carry 1-4 digits.  The
source's `DATE_RE` instead caps the middle segment at 2 digits. -/
def dateShapeSpecL (l : List Char) : Bool :=
  let d1 := countLeadingDigits l
  if d1 < 1 || 4 < d1 then false else
  match l.drop d1 with
  | [] => false
  | s1 :: r1 =>
    if !isDateSep s1 then false else
    let d2 := countLeadingDigits r1
    if d2 < 1 || 4 < d2 then false else
    match r1.drop d2 with
    | [] => false
    | s2 :: r2 =>
      if !isDateSep s2 then false else
      let d3 := countLeadingDigits r2
      if d3 < 1 || 4 < d3 then false else (r2.drop d3).isEmpty

/-- Claim C5 counterexample: "1/111/1" has the claim's shape (1-4 digits in
each segment, separators, not empty/placeholder/boolean), yet the
classifier returns "text", not "date": `DATE_RE` only allows 1-2 digits in
the middle segment. -/
theorem claim_C5_counterexample :
    dateShapeSpecL (to_ascii_digits (normalize_space ("1/111/1"))).data = true ∧
    testEmpty ("1/111/1") = false ∧
    testPlaceholder ("1/111/1") = false ∧
    testBoolean ("1/111/1") = false ∧
    infer_text_type ("1/111/1") = "text" := by
  decide

/-- A string matching the date shape starts with a digit. -/
theorem dateShape_head {l : List Char} (h : dateShapeL l = true) :
    ∃ c cs, l = c :: cs ∧ isPyDigit c = true := by
  match l with
  | [] => simp [dateShapeL, countLeadingDigits] at h
  | c :: cs =>
    cases hd : isPyDigit c
    · simp [dateShapeL, countLeadingDigits, hd] at h
    · exact ⟨c, cs, rfl, hd⟩

/-- ASCII lower-casing fixes digits. -/
theorem pyLowerChar_digit {c : Char} (h : isPyDigit c = true) :
    pyLowerChar c = c := by
  simp only [isPyDigit, Bool.and_eq_true, decide_eq_true_eq] at h
  unfold pyLowerChar
  rw [if_neg]
  simp only [Bool.and_eq_true, decide_eq_true_eq, not_and]
  intro hA _
  exact absurd (le_trans hA h.2) (by decide)

/-- Claim C5 (amended): whenever the whitespace-normalized,
digit-transliterated form of the input matches the source's date shape -
1-4 digits, separator, 1-2 digits, separator, 1-4 digits - the classifier
returns "date" (the earlier empty/placeholder/boolean tags can never match
such a string). -/
theorem claim_C5_amended (v : String)
    (h : dateShapeL (to_ascii_digits (normalize_space v)).data = true) :
    infer_text_type v = "date" := by
  obtain ⟨c, cs, hl, hd⟩ := dateShape_head h
  have hne : testEmpty v = false := by
    cases he : testEmpty v
    · rfl
    · exfalso
      have hnv : normalize_space v = "" := by
        have h2 := he
        unfold testEmpty at h2
        exact of_decide_eq_true h2
      rw [hnv] at h
      exact absurd h (by decide)
  have hnp : testPlaceholder v = false := by
    cases hp : testPlaceholder v
    · rfl
    · exfalso
      unfold testPlaceholder at hp
      simp only [PLACEHOLDER_VALUES, List.contains, List.elem_eq_mem, List.mem_cons,
        List.not_mem_nil, or_false, decide_eq_true_eq] at hp
      rcases hp with hc | hc | hc | hc | hc | hc | hc | hc | hc <;>
        (rw [hc] at h; exact absurd h (by decide))
  have hnb : testBoolean v = false := by
    cases hb : testBoolean v
    · rfl
    · exfalso
      unfold testBoolean at hb
      simp only [List.contains, List.elem_eq_mem, List.mem_cons, List.not_mem_nil,
        or_false, decide_eq_true_eq] at hb
      have hmap : (to_ascii_digits (normalize_space v)).data.map pyLowerChar =
          (pyLower (to_ascii_digits (normalize_space v))).data := rfl
      rcases hb with hc | hc | hc | hc <;>
        (rw [hc] at hmap; rw [hl] at hmap;
         simp only [List.map_cons] at hmap;
         have hh := List.head_eq_of_cons_eq hmap;
         rw [pyLowerChar_digit hd] at hh;
         rw [hh] at hd; exact absurd hd (by decide))
  have hdt : testDate v = true := h
  simp [infer_text_type, hne, hnp, hnb, hdt]

/-- Claim C5 witness: the amended theorem applied to "2024/01/15". -/
theorem claim_C5_witness :
    dateShapeL (to_ascii_digits (normalize_space ("2024/01/15"))).data = true ∧
    infer_text_type ("2024/01/15") = "date" :=
  ⟨by decide, claim_C5_amended ("2024/01/15") (by decide)⟩

/-! ## Claim C7: key-value extraction -/

/-- Claim C7 counterexample: on the line "：a:b" the earliest colon-like
character is the full-width colon at position 0, so the claim's rule
("split at the earliest occurrence ... discard lines whose key is empty")
discards the line; the source instead ignores colons at position 0
(`pos > 0`) and splits at the half-width colon, producing a pair whose key
still contains the full-width colon. -/
theorem claim_C7_counterexample :
    extract_key_values ("：a:b") = [⟨"：a", "b"⟩] ∧
    extract_key_values ("：a:b") ≠ [] := by
  decide

/-- Claim C7 (amended): each non-blank normalized line is split at the
earliest occurrence of a half-width or full-width colon that sits at a
positive position (a colon at position 0 is ignored rather than forcing a
discard), with both sides trimmed; lines with no positively-positioned
colon, or whose key strips to empty, are discarded.  In particular
"Weight: 12.4 kg" yields exactly {key "Weight", value "12.4 kg"}, whose
value re-classifies as measurement; a lone leading colon yields nothing;
and every extracted pair has a non-empty key. -/
theorem claim_C7_amended :
    extract_key_values ("Weight: 12.4 kg") = [⟨"Weight", "12.4 kg"⟩] ∧
    infer_text_type ("12.4 kg") = "measurement" ∧
    extract_key_values (":x") = [] ∧
    extract_key_values ("abc") = [] ∧
    ∀ (text : String) (p : KeyValue), p ∈ extract_key_values text → p.key ≠ "" := by
  refine ⟨by decide, by decide, by decide, by decide, ?_⟩
  intro text p hp
  unfold extract_key_values at hp
  obtain ⟨line, _, hkv⟩ := List.mem_filterMap.mp hp
  unfold keyValueOfLine at hkv
  dsimp only at hkv
  split at hkv
  · exact absurd hkv (by simp)
  · split at hkv
    · exact absurd hkv (by simp)
    · split at hkv
      · exact absurd hkv (by simp)
      · rename_i hkey
        have hpv := Option.some.inj hkv
        intro hcontra
        rw [← hpv] at hcontra
        have hdata : pyStripL ((normalizeSpaceL line).take _) = [] :=
          congrArg String.data hcontra
        rw [hdata] at hkey
        exact hkey rfl

/-! ## Claim C8: per-row error recovery in `parse_table` -/

deriving instance DecidableEq for Except

/-- A table whose first row carries a non-numeric `gridSpan` and whose
second row is well-formed. -/
def c8BadSpanTable : XElem :=
  xe ("w:tbl") []
    [xe ("w:tr") [] [tcSpan ("abc") ("x")],
     xe ("w:tr") [] [tcPlain ("y")]]

/-- A table whose first row carries a non-numeric `gridBefore` and whose
second row is well-formed. -/
def c8BadBeforeTable : XElem :=
  xe ("w:tbl") []
    [xe ("w:tr") []
       [xe ("w:trPr") [] [xe ("w:gridBefore") [("w:val", "zz")] []], tcPlain ("x")],
     xe ("w:tr") [] [tcPlain ("y")]]

/-- A table whose first row has no cell elements at all. -/
def c8EmptyRowTable : XElem :=
  xe ("w:tbl") []
    [xe ("w:tr") [] [],
     xe ("w:tr") [] [tcPlain ("y")]]

/-- Claim C8 counterexample: the claim says a malformed row (for example a
non-numeric `gridSpan` or `gridBefore` value) is treated as an empty row
and never aborts the whole table; but `parse_table` performs unguarded
`int()` conversions, so either malformed value aborts the entire table
(and the well-formed second row is never parsed). -/
theorem claim_C8_counterexample :
    parse_table c8BadSpanTable 0 0 =
      Except.error ("invalid literal for int() with base 10: abc") ∧
    parse_table c8BadBeforeTable 0 0 =
      Except.error ("invalid literal for int() with base 10: zz") := by
  decide

/-- Claim C8 (amended): a row element with an absent cell list yields an
empty row and processing continues with the remaining rows (the table
below parses to two rows with 0 and 1 cells); but a row whose `gridSpan`
or `gridBefore` value is non-numeric raises and aborts parsing of the
whole table. -/
theorem claim_C8_amended :
    (parse_table c8EmptyRowTable 0 0).map
        (fun t => (t.row_count, t.rows.map (fun r => r.cells.length))) =
      Except.ok (2, [0, 1]) ∧
    (parse_table c8BadSpanTable 0 0).toOption = none ∧
    (parse_table c8BadBeforeTable 0 0).toOption = none := by
  decide

/-! ## Claim C10: column cursor accumulation -/

/-- The cursor recurrence of `parse_table`'s cell loop: each cell starts at
the running cursor, which then advances by the cell's span. -/
def colChain : Int → List Cell → Prop
  | _, [] => True
  | cursor, c :: rest => c.col_start = cursor ∧ colChain (cursor + c.col_span) rest

/-- A table with one row of two `gridSpan="0"` cells. -/
def c10ZeroSpanTable : XElem :=
  xe ("w:tbl") [] [xe ("w:tr") [] [tcSpan ("0") ("a"), tcSpan ("0") ("b")]]

/-- A well-formed 2x2 table. -/
def c10PlainTable : XElem :=
  xe ("w:tbl") []
    [xe ("w:tr") [] [tcPlain ("Name"), tcPlain ("Qty")],
     xe ("w:tr") [] [tcPlain ("ab"), tcPlain ("12")]]

/-- Claim C10 counterexample: `gridSpan` may parse to 0, in which case the
cursor does not advance: the claim's consequent fails, with two cells of
the same row occupying the identical `(col_start, col_span)` slot `(0,0)`
and `col_start` not strictly increasing. -/
theorem claim_C10_counterexample :
    (parse_table c10ZeroSpanTable 0 0).map
        (fun t => t.rows.map (fun r => r.cells.map cellSlot)) =
      Except.ok [[(0, 0), (0, 0)]] := by
  decide

theorem buildCells_chain {rowIndex : Nat} :
    ∀ (tcs : List XElem) (cursor : Int) (cellIndex : Nat) (cells : List Cell),
      buildCells rowIndex tcs cursor cellIndex = .ok cells →
      colChain cursor cells := by
  intro tcs
  induction tcs with
  | nil =>
    intro cursor cellIndex cells h
    simp only [buildCells] at h
    cases h
    trivial
  | cons tc rest ih =>
    intro cursor cellIndex cells h
    simp only [buildCells] at h
    cases hc : parseCell tc rowIndex cellIndex cursor with
    | error e => rw [hc] at h; cases h
    | ok cell =>
      rw [hc] at h
      dsimp only at h
      cases hr : buildCells rowIndex rest (cursor + cell.col_span) (cellIndex + 1) with
      | error e => rw [hr] at h; cases h
      | ok cells2 =>
        rw [hr] at h
        dsimp only at h
        cases h
        have hstart : cell.col_start = cursor := by
          unfold parseCell at hc
          cases hs : cellColSpan tc with
          | error e => rw [hs] at hc; cases hc
          | ok sp => rw [hs] at hc; dsimp only at hc; cases hc; rfl
        exact ⟨hstart, ih _ _ _ hr⟩

theorem parseRow_chain {tr : XElem} {rowIndex : Nat} {row : Row}
    (h : parseRow tr rowIndex = .ok row) :
    colChain row.grid_before row.cells := by
  unfold parseRow at h
  cases hg : rowGridBefore tr with
  | error e => rw [hg] at h; cases h
  | ok gb =>
    rw [hg] at h
    dsimp only at h
    cases hb : buildCells rowIndex (childrenTagged ("w:tc") tr) gb 0 with
    | error e => rw [hb] at h; cases h
    | ok cells =>
      rw [hb] at h
      dsimp only at h
      cases h
      exact buildCells_chain _ _ _ _ hb

theorem parseRowsFrom_chain :
    ∀ (trs : List XElem) (i : Nat) (rows : List Row),
      parseRowsFrom trs i = .ok rows →
      ∀ row ∈ rows, colChain row.grid_before row.cells := by
  intro trs
  induction trs with
  | nil =>
    intro i rows h row hmem
    simp only [parseRowsFrom] at h
    cases h
    cases hmem
  | cons tr rest ih =>
    intro i rows h row hmem
    simp only [parseRowsFrom] at h
    cases hr : parseRow tr i with
    | error e => rw [hr] at h; cases h
    | ok r =>
      rw [hr] at h
      dsimp only at h
      cases hs : parseRowsFrom rest (i + 1) with
      | error e => rw [hs] at h; cases h
      | ok rows2 =>
        rw [hs] at h
        dsimp only at h
        cases h
        rcases List.mem_cons.mp hmem with heq | hmem2
        · rw [heq]; exact parseRow_chain hr
        · exact ih _ _ hs row hmem2

/-- Merge resolution rewrites only `row_span` and `merge_anchor_row`. -/
theorem transformCell_col (rows : List Row) (i : Nat) (c : Cell) :
    (transformCell rows i c).col_start = c.col_start ∧
    (transformCell rows i c).col_span = c.col_span ∧
    (transformCell rows i c).v_merge = c.v_merge := by
  unfold transformCell
  split <;> exact ⟨rfl, rfl, rfl⟩

theorem colChain_map_transform (rows : List Row) (i : Nat) :
    ∀ (cells : List Cell) (cursor : Int), colChain cursor cells →
      colChain cursor (cells.map (transformCell rows i)) := by
  intro cells
  induction cells with
  | nil => intro cursor h; trivial
  | cons c rest ih =>
    intro cursor h
    obtain ⟨h1, h2⟩ := h
    obtain ⟨e1, e2, _⟩ := transformCell_col rows i c
    refine ⟨by rw [e1, h1], ?_⟩
    rw [e2]
    exact ih _ h2

theorem annotateGo_mem {all : List Row} :
    ∀ (l : List Row) (i : Nat) (row : Row), row ∈ annotateGo all l i →
      ∃ r0 ∈ l, ∃ j, row = transformRow all j r0 := by
  intro l
  induction l with
  | nil => intro i row h; cases h
  | cons r rest ih =>
    intro i row h
    rcases List.mem_cons.mp h with heq | hmem
    · exact ⟨r, List.mem_cons_self r rest, i, heq⟩
    · obtain ⟨r0, hr0, j, hj⟩ := ih _ _ hmem
      exact ⟨r0, List.mem_cons_of_mem r hr0, j, hj⟩

/-- A chained cell list with positive spans has strictly increasing
starts, every start bounded below by the cursor. -/
theorem colChain_lb :
    ∀ (cells : List Cell) (cursor : Int), colChain cursor cells →
      (∀ c ∈ cells, 1 ≤ c.col_span) →
      ∀ c ∈ cells, cursor ≤ c.col_start := by
  intro cells
  induction cells with
  | nil => intro cursor _ _ c hc; cases hc
  | cons c rest ih =>
    intro cursor h hsp x hx
    obtain ⟨h1, h2⟩ := h
    rcases List.mem_cons.mp hx with heq | hmem
    · rw [heq, h1]
    · have hsp1 : (1 : Int) ≤ c.col_span := hsp c (List.mem_cons_self c rest)
      have := ih (cursor + c.col_span) h2
        (fun y hy => hsp y (List.mem_cons_of_mem c hy)) x hmem
      omega

theorem colChain_pairwise :
    ∀ (cells : List Cell) (cursor : Int), colChain cursor cells →
      (∀ c ∈ cells, 1 ≤ c.col_span) →
      cells.Pairwise (fun a b => a.col_start < b.col_start) := by
  intro cells
  induction cells with
  | nil => intro cursor _ _; exact List.Pairwise.nil
  | cons c rest ih =>
    intro cursor h hsp
    obtain ⟨h1, h2⟩ := h
    refine List.Pairwise.cons ?_ (ih _ h2 (fun y hy => hsp y (List.mem_cons_of_mem c hy)))
    intro x hx
    have hlb := colChain_lb rest (cursor + c.col_span) h2
      (fun y hy => hsp y (List.mem_cons_of_mem c hy)) x hx
    have hsp1 : (1 : Int) ≤ c.col_span := hsp c (List.mem_cons_self c rest)
    omega

/-- Claim C10 (amended): in every successfully parsed table, every row's
cells satisfy the cursor recurrence - the first cell starts at the row's
`grid_before` skip and each subsequent cell starts where the previous
cell's span ends; and whenever all of the row's spans are at least 1 (the
claim's tacit assumption, which `gridSpan="0"` violates), the starts are
strictly increasing and no two cells of the row share a
`(col_start, col_span)` slot. -/
theorem claim_C10_amended (tableElement : XElem) (tableIndex bodyBlockIndex : Nat)
    (tbl : Table) (h : parse_table tableElement tableIndex bodyBlockIndex = .ok tbl) :
    ∀ row ∈ tbl.rows, colChain row.grid_before row.cells ∧
      ((∀ c ∈ row.cells, 1 ≤ c.col_span) →
        row.cells.Pairwise (fun a b => a.col_start < b.col_start) ∧
        row.cells.Pairwise (fun a b => cellSlot a ≠ cellSlot b)) := by
  unfold parse_table at h
  cases hg : parseGridColumns tableElement with
  | error e => rw [hg] at h; cases h
  | ok gridColumns =>
    rw [hg] at h
    dsimp only at h
    cases hr : parseRowsFrom (childrenTagged ("w:tr") tableElement) 0 with
    | error e => rw [hr] at h; cases h
    | ok rows0 =>
      rw [hr] at h
      dsimp only at h
      cases h
      intro row hrow
      obtain ⟨r0, hr0, j, hj⟩ := annotateGo_mem _ _ _ hrow
      have hchain0 := parseRowsFrom_chain _ _ _ hr r0 hr0
      have hgb : row.grid_before = r0.grid_before := by rw [hj]; rfl
      have hcells : row.cells = r0.cells.map (transformCell rows0 j) := by rw [hj]; rfl
      have hchain : colChain row.grid_before row.cells := by
        rw [hgb, hcells]
        exact colChain_map_transform rows0 j r0.cells r0.grid_before hchain0
      refine ⟨hchain, fun hsp => ?_⟩
      have hpw := colChain_pairwise row.cells row.grid_before hchain hsp
      exact ⟨hpw, hpw.imp (fun hlt => by
        intro hslot
        rw [cellSlot, cellSlot] at hslot
        have := congrArg Prod.fst hslot
        simp only at this
        omega)⟩

/-- Claim C10 witness: the amended theorem applied to a concrete
well-formed 2x2 table. -/
theorem claim_C10_witness :
    ∃ tbl, parse_table c10PlainTable 0 0 = .ok tbl ∧
      ∀ row ∈ tbl.rows, colChain row.grid_before row.cells ∧
        ((∀ c ∈ row.cells, 1 ≤ c.col_span) →
          row.cells.Pairwise (fun a b => a.col_start < b.col_start) ∧
          row.cells.Pairwise (fun a b => cellSlot a ≠ cellSlot b)) := by
  have hok : (parse_table c10PlainTable 0 0).toOption.isSome = true := by decide
  cases htbl : parse_table c10PlainTable 0 0 with
  | error e => rw [htbl] at hok; simp [Except.toOption] at hok
  | ok tbl => exact ⟨tbl, rfl, claim_C10_amended c10PlainTable 0 0 tbl htbl⟩

/-! ## Claim C3: vertical merge resolution invariant -/

theorem annotateGo_get? (all : List Row) :
    ∀ (l : List Row) (i k : Nat),
      (annotateGo all l i).get? k = (l.get? k).map (transformRow all (i + k)) := by
  intro l
  induction l with
  | nil => intro i k; simp [annotateGo]
  | cons r rest ih =>
    intro i k
    cases k with
    | zero => simp [annotateGo]
    | succ k2 =>
      simp only [annotateGo, List.get?]
      rw [ih (i + 1) k2]
      have he : i + 1 + k2 = i + (k2 + 1) := by omega
      rw [he]

theorem annotate_get? (rows : List Row) (k : Nat) :
    (annotate_vertical_merges rows).get? k = (rows.get? k).map (transformRow rows k) := by
  unfold annotate_vertical_merges
  rw [annotateGo_get?]
  simp

theorem annotateGo_length (all : List Row) :
    ∀ (l : List Row) (i : Nat), (annotateGo all l i).length = l.length := by
  intro l
  induction l with
  | nil => intro i; rfl
  | cons r rest ih => intro i; simp [annotateGo, ih]

theorem annotate_length (rows : List Row) :
    (annotate_vertical_merges rows).length = rows.length :=
  annotateGo_length rows rows 0

theorem transformCell_slot (all : List Row) (j : Nat) (c : Cell) :
    cellSlot (transformCell all j c) = cellSlot c := by
  unfold cellSlot
  rw [(transformCell_col all j c).1, (transformCell_col all j c).2.1]

theorem isCont_transform (all : List Row) (j : Nat) (c : Cell) :
    isCont (transformCell all j c) = isCont c := by
  unfold isCont
  rw [(transformCell_col all j c).2.2]

theorem slotLookup_transform (all : List Row) (j : Nat) (r : Row) (s : Int × Int) :
    slotLookup (transformRow all j r) s = (slotLookup r s).map (transformCell all j) := by
  unfold slotLookup transformRow
  simp only []
  rw [List.filter_map]
  have hpt : ∀ c ∈ r.cells,
      ((fun c => decide (cellSlot c = s)) ∘ transformCell all j) c =
      (fun c => decide (cellSlot c = s)) c := by
    intro c _
    simp [Function.comp, transformCell_slot]
  rw [List.filter_congr hpt]
  rw [List.getLast?_map]

theorem lookupSlotAt_annotate (rows : List Row) (j : Nat) (s : Int × Int) :
    lookupSlotAt (annotate_vertical_merges rows) j s =
      (lookupSlotAt rows j s).map (transformCell rows j) := by
  unfold lookupSlotAt
  rw [annotate_get?]
  cases rows.get? j with
  | none => rfl
  | some r => simp [slotLookup_transform]

theorem contBelow_annotate (rows : List Row) (s : Int × Int) :
    ∀ (fuel j : Nat),
      contBelow (annotate_vertical_merges rows) s j fuel = contBelow rows s j fuel := by
  intro fuel
  induction fuel with
  | zero => intro j; rfl
  | succ fuel2 ih =>
    intro j
    unfold contBelow
    rw [lookupSlotAt_annotate]
    cases h : lookupSlotAt rows j s with
    | none => rfl
    | some c =>
      dsimp only [Option.map]
      rw [isCont_transform]
      cases isCont c with
      | false => rfl
      | true => simp [ih]

theorem findAnchorFrom_spec (rows : List Row) (s : Int × Int) :
    ∀ (i a : Nat), findAnchorFrom rows s i = some a →
      a < i ∧ ∃ c0, lookupSlotAt rows a s = some c0 ∧ isCont c0 = false := by
  intro i
  induction i with
  | zero => intro a h; simp [findAnchorFrom] at h
  | succ k ih =>
    intro a h
    unfold findAnchorFrom at h
    cases hl : lookupSlotAt rows k s with
    | none => rw [hl] at h; cases h
    | some c =>
      rw [hl] at h
      dsimp only at h
      cases hc : isCont c with
      | true =>
        rw [hc] at h
        simp at h
        obtain ⟨hlt, hex⟩ := ih a h
        exact ⟨Nat.lt_succ_of_lt hlt, hex⟩
      | false =>
        rw [hc] at h
        simp at h
        cases h
        exact ⟨Nat.lt_succ_self k, c, hl, hc⟩

theorem slotLookup_slot {row : Row} {s : Int × Int} {c : Cell}
    (h : slotLookup row s = some c) : cellSlot c = s := by
  unfold slotLookup at h
  have hmem := List.mem_of_mem_getLast? h
  have := (List.mem_filter.mp hmem).2
  exact of_decide_eq_true this

/-- Claim C3: after merge resolution, every `continue` cell with a resolved
anchor has `merge_anchor_row` strictly below its own row index and
`row_span = 0`, and the anchor cell at that row and the same slot is a
non-continue cell whose `row_span` equals 1 plus the number of contiguous
`continue` cells directly below it in the same slot. -/
theorem claim_C3 (rows : List Row) (i a : Nat) (row : Row) (c : Cell)
    (hrow : (annotate_vertical_merges rows).get? i = some row)
    (hc : c ∈ row.cells) (hcont : isCont c = true)
    (hanchor : c.merge_anchor_row = some a) :
    a < i ∧ c.row_span = 0 ∧
    ∃ rowA anchorCell,
      (annotate_vertical_merges rows).get? a = some rowA ∧
      slotLookup rowA (cellSlot c) = some anchorCell ∧
      isCont anchorCell = false ∧
      anchorCell.row_span =
        1 + contiguousContinuesBelow (annotate_vertical_merges rows) (cellSlot c) (a + 1) := by
  rw [annotate_get?] at hrow
  cases hr0 : rows.get? i with
  | none => rw [hr0] at hrow; cases hrow
  | some r0 =>
    rw [hr0] at hrow
    dsimp only [Option.map] at hrow
    cases hrow
    obtain ⟨c0, hc0mem, hc0eq⟩ := List.mem_map.mp hc
    have hcont0 : isCont c0 = true := by rw [← isCont_transform rows i c0, hc0eq]; exact hcont
    have hcform : c = { c0 with
        merge_anchor_row := findAnchorFrom rows (cellSlot c0) i, row_span := 0 } := by
      rw [← hc0eq]
      unfold transformCell
      rw [hcont0]
      simp
    have hslot : cellSlot c = cellSlot c0 := by
      rw [← hc0eq]; exact transformCell_slot rows i c0
    have hspan0 : c.row_span = 0 := by rw [hcform]
    have hfind : findAnchorFrom rows (cellSlot c0) i = some a := by
      rw [hcform] at hanchor
      exact hanchor
    obtain ⟨hlt, c0A, hlook, hcontA⟩ := findAnchorFrom_spec rows (cellSlot c0) i a hfind
    unfold lookupSlotAt at hlook
    cases hrA : rows.get? a with
    | none => rw [hrA] at hlook; cases hlook
    | some rA0 =>
      rw [hrA] at hlook
      dsimp only [Option.bind] at hlook
      refine ⟨hlt, hspan0,
        transformRow rows a rA0, transformCell rows a c0A, ?_, ?_, ?_, ?_⟩
      · rw [annotate_get?, hrA]; rfl
      · rw [hslot, slotLookup_transform, hlook]; rfl
      · rw [isCont_transform]; exact hcontA
      · have hslotA : cellSlot c0A = cellSlot c0 := slotLookup_slot hlook
        have : (transformCell rows a c0A).row_span = rowSpanDown rows a (cellSlot c0A) := by
          unfold transformCell
          rw [hcontA]
          simp
        rw [this, hslotA, hslot]
        unfold rowSpanDown contiguousContinuesBelow
        rw [contBelow_annotate, annotate_length]

/-- Fixture for the C3 witness: a three-row, two-column table whose first
column is a vertical merge of all three rows. -/
def c3Rows : List Row :=
  [mkRow 0 [mkCell 0 0 0 1 none ("a"), mkCell 0 1 1 1 none ("b")],
   mkRow 1 [mkCell 1 0 0 1 (some ("continue")) (""), mkCell 1 1 1 1 none ("c")],
   mkRow 2 [mkCell 2 0 0 1 (some ("continue")) (""), mkCell 2 1 1 1 (some ("restart")) ("d")]]

def c3AnnRow1 : Row := (annotate_vertical_merges c3Rows).getD 1 default

def c3AnnCell : Cell := c3AnnRow1.cells.headD default

/-- Claim C3 witness: the theorem applied to the concrete merged table at
row 1, whose continue cell resolves to the anchor at row 0. -/
theorem claim_C3_witness :
    (annotate_vertical_merges c3Rows).get? 1 = some c3AnnRow1 ∧
    c3AnnCell ∈ c3AnnRow1.cells ∧
    isCont c3AnnCell = true ∧
    c3AnnCell.merge_anchor_row = some 0 ∧
    (0 < 1 ∧ c3AnnCell.row_span = 0 ∧
     ∃ rowA anchorCell,
       (annotate_vertical_merges c3Rows).get? 0 = some rowA ∧
       slotLookup rowA (cellSlot c3AnnCell) = some anchorCell ∧
       isCont anchorCell = false ∧
       anchorCell.row_span =
         1 + contiguousContinuesBelow (annotate_vertical_merges c3Rows)
             (cellSlot c3AnnCell) (0 + 1)) :=
  ⟨by decide, by decide, by decide, by decide,
   claim_C3 c3Rows 1 0 c3AnnRow1 c3AnnCell (by decide) (by decide) (by decide) (by decide)⟩

/-! ## Claim C1: section partition shape.  Support lemmas about
contiguous runs and the decomposed section-inference definitions. -/

/-- A strictly consecutive run of indices (the spec's "contiguous"). -/
def isContigRun : List Nat → Bool
  | [] => true
  | [_] => true
  | a :: b :: t => (b = a + 1) && isContigRun (b :: t)

theorem isContigRun_range' : ∀ (n a : Nat), isContigRun (List.range' a n) = true := by
  intro n
  induction n with
  | zero => intro a; rfl
  | succ m ih =>
    intro a
    cases m with
    | zero => rfl
    | succ m2 =>
      have h1 : List.range' a (m2 + 2) = a :: (a + 1) :: List.range' (a + 2) m2 := rfl
      rw [h1]
      have h2 := ih (a + 1)
      have h3 : List.range' (a + 1) (m2 + 1) = (a + 1) :: List.range' (a + 2) m2 := rfl
      rw [h3] at h2
      simp [isContigRun, h2]

theorem isContigRun_range (n : Nat) : isContigRun (List.range n) = true := by
  rw [List.range_eq_range']
  exact isContigRun_range' n 0

/-- Filtering a contiguous run by an upward-closed threshold keeps it
contiguous (the kept indices form a suffix of the run). -/
theorem isContigRun_filter_ge (d : Nat) :
    ∀ (l : List Nat), isContigRun l = true →
      isContigRun (l.filter (fun i => decide (d ≤ i))) = true := by
  intro l
  induction l with
  | nil => intro _; rfl
  | cons a t ih =>
    intro h
    cases t with
    | nil =>
      by_cases hd : d ≤ a <;> simp [List.filter, hd, isContigRun]
    | cons b t2 =>
      have hab : b = a + 1 := by
        have := h
        simp only [isContigRun, Bool.and_eq_true, decide_eq_true_eq] at this
        exact this.1
      have ht : isContigRun (b :: t2) = true := by
        have := h
        simp only [isContigRun, Bool.and_eq_true] at this
        exact this.2
      by_cases hd : d ≤ a
      · -- the whole run is kept: a kept, and every later element is ≥ a ≥ d
        have hkeep : ∀ (m : List Nat) (x : Nat), isContigRun (x :: m) = true → d ≤ x →
            (x :: m).filter (fun i => decide (d ≤ i)) = x :: m := by
          intro m
          induction m with
          | nil => intro x _ hx; simp [List.filter, hx]
          | cons y m2 ihm =>
            intro x hrun hx
            have hxy : y = x + 1 := by
              have := hrun
              simp only [isContigRun, Bool.and_eq_true, decide_eq_true_eq] at this
              exact this.1
            have hrun2 : isContigRun (y :: m2) = true := by
              have := hrun
              simp only [isContigRun, Bool.and_eq_true] at this
              exact this.2
            have hy : d ≤ y := by omega
            have := ihm y hrun2 hy
            simp [List.filter_cons, hx, this]
        rw [hkeep (b :: t2) a h hd]
        exact h
      · have hda : decide (d ≤ a) = false := by simp [hd]
        rw [List.filter_cons, hda]
        simp only [Bool.false_eq_true, if_false]
        exact ih ht

/-- Accumulator variant: a reversed contiguous run (each element one more
than its successor in the list). -/
def isContigRunRev : List Nat → Bool
  | [] => true
  | [_] => true
  | b :: a :: t => (b = a + 1) && isContigRunRev (a :: t)

theorem isContigRun_append_succ :
    ∀ (l : List Nat) (a : Nat), isContigRun l = true → l.getLast? = some a →
      isContigRun (l ++ [a + 1]) = true := by
  intro l
  induction l with
  | nil => intro a _ hl; cases hl
  | cons x t ih =>
    intro a hrun hlast
    cases t with
    | nil =>
      have : x = a := by
        simp [List.getLast?] at hlast
        exact hlast
      subst this
      simp [isContigRun]
    | cons y t2 =>
      have hxy : y = x + 1 := by
        have := hrun
        simp only [isContigRun, Bool.and_eq_true, decide_eq_true_eq] at this
        exact this.1
      have hrun2 : isContigRun (y :: t2) = true := by
        have := hrun
        simp only [isContigRun, Bool.and_eq_true] at this
        exact this.2
      have hlast2 : (y :: t2).getLast? = some a := by
        rw [← hlast]
        rfl
      have := ih a hrun2 hlast2
      simp only [List.cons_append]
      simp only [isContigRun, Bool.and_eq_true, decide_eq_true_eq]
      constructor
      · exact hxy
      · simpa using this

theorem isContigRunRev_reverse :
    ∀ (l : List Nat), isContigRunRev l = true → isContigRun l.reverse = true := by
  intro l
  induction l with
  | nil => intro _; rfl
  | cons b t ih =>
    intro h
    cases t with
    | nil => rfl
    | cons a t2 =>
      have hba : b = a + 1 := by
        have := h
        simp only [isContigRunRev, Bool.and_eq_true, decide_eq_true_eq] at this
        exact this.1
      have ht : isContigRunRev (a :: t2) = true := by
        have := h
        simp only [isContigRunRev, Bool.and_eq_true] at this
        exact this.2
      have hrev := ih ht
      have hlast : (a :: t2).reverse.getLast? = some a := by
        rw [List.getLast?_reverse]
        rfl
      have := isContigRun_append_succ (a :: t2).reverse a hrev hlast
      rw [hba]
      simpa using this

theorem contigGroupsGo_runs :
    ∀ (ys cur : List Nat), isContigRunRev cur = true →
      ∀ g ∈ contigGroupsGo ys cur, isContigRun g = true := by
  intro ys
  induction ys with
  | nil =>
    intro cur hcur g hg
    simp only [contigGroupsGo, List.mem_singleton] at hg
    rw [hg]
    exact isContigRunRev_reverse cur hcur
  | cons y ys2 ih =>
    intro cur hcur g hg
    simp only [contigGroupsGo] at hg
    by_cases hy : y = cur.headD 0 + 1
    · rw [if_pos hy] at hg
      have hnew : isContigRunRev (y :: cur) = true := by
        cases cur with
        | nil => rfl
        | cons c t =>
          simp only [List.headD] at hy
          simp only [isContigRunRev, Bool.and_eq_true, decide_eq_true_eq]
          exact ⟨hy, hcur⟩
      exact ih (y :: cur) hnew g hg
    · rw [if_neg hy] at hg
      rcases List.mem_cons.mp hg with heq | hmem
      · rw [heq]
        exact isContigRunRev_reverse cur hcur
      · exact ih [y] rfl g hmem

theorem contigGroups_runs (l : List Nat) :
    ∀ g ∈ contigGroups l, isContigRun g = true := by
  cases l with
  | nil => intro g hg; cases hg
  | cons x xs => exact contigGroupsGo_runs xs [x] rfl

theorem maxByLen_mem :
    ∀ (gs : List (List Nat)) (g : List Nat),
      gs.foldl (fun best x => if best.length < x.length then x else best) g ∈ g :: gs := by
  intro gs
  induction gs with
  | nil => intro g; simp
  | cons h t ih =>
    intro g
    simp only [List.foldl]
    by_cases hc : g.length < h.length
    · rw [if_pos hc]
      have := ih h
      rcases List.mem_cons.mp this with he | hm
      · rw [he]; simp
      · simp [hm]
    · rw [if_neg hc]
      have := ih g
      rcases List.mem_cons.mp this with he | hm
      · rw [he]; simp
      · simp [hm]

theorem maxByLen_mem2 (gs : List (List Nat)) (h : gs ≠ []) : maxByLen gs ∈ gs := by
  cases gs with
  | nil => exact absurd rfl h
  | cons g t => exact maxByLen_mem t g

theorem contigGroupsGo_ne : ∀ (ys cur : List Nat), contigGroupsGo ys cur ≠ [] := by
  intro ys
  induction ys with
  | nil => intro cur; simp [contigGroupsGo]
  | cons y ys2 ih =>
    intro cur
    simp only [contigGroupsGo]
    by_cases hy : y = cur.headD 0 + 1
    · rw [if_pos hy]
      exact ih (y :: cur)
    · rw [if_neg hy]
      simp

/-- The longest contiguous group is empty or one of the groups. -/
theorem longest_contiguous_group_spec (l : List Nat) :
    longest_contiguous_group l = [] ∨ longest_contiguous_group l ∈ contigGroups l := by
  cases l with
  | nil => exact Or.inl rfl
  | cons x xs =>
    right
    have hne : contigGroups (x :: xs) ≠ [] := contigGroupsGo_ne xs [x]
    have he : longest_contiguous_group (x :: xs) = maxByLen (contigGroups (x :: xs)) := rfl
    rw [he]
    exact maxByLen_mem2 _ hne

theorem longest_contiguous_group_run (l : List Nat) :
    isContigRun (longest_contiguous_group l) = true := by
  rcases longest_contiguous_group_spec l with he | hmem
  · rw [he]; rfl
  · exact contigGroups_runs l _ hmem

theorem contigGroupsGo_sub :
    ∀ (ys cur : List Nat) (g : List Nat), g ∈ contigGroupsGo ys cur →
      ∀ x ∈ g, x ∈ cur ∨ x ∈ ys := by
  intro ys
  induction ys with
  | nil =>
    intro cur g hg x hx
    simp only [contigGroupsGo, List.mem_singleton] at hg
    rw [hg] at hx
    exact Or.inl (List.mem_reverse.mp hx)
  | cons y ys2 ih =>
    intro cur g hg x hx
    simp only [contigGroupsGo] at hg
    by_cases hy : y = cur.headD 0 + 1
    · rw [if_pos hy] at hg
      rcases ih (y :: cur) g hg x hx with hin | hin
      · rcases List.mem_cons.mp hin with he | hm
        · exact Or.inr (by rw [he]; simp)
        · exact Or.inl hm
      · exact Or.inr (List.mem_cons_of_mem y hin)
    · rw [if_neg hy] at hg
      rcases List.mem_cons.mp hg with he | hm
      · rw [he] at hx
        exact Or.inl (List.mem_reverse.mp hx)
      · rcases ih [y] g hm x hx with hin | hin
        · exact Or.inr (by simp at hin; rw [hin]; simp)
        · exact Or.inr (List.mem_cons_of_mem y hin)

theorem longest_contiguous_group_sub (l : List Nat) :
    ∀ x ∈ longest_contiguous_group l, x ∈ l := by
  rcases longest_contiguous_group_spec l with he | hmem
  · rw [he]; intro x hx; cases hx
  · intro x hx
    cases l with
    | nil => exact absurd hmem (List.not_mem_nil _)
    | cons a as =>
      rcases contigGroupsGo_sub as [a] _ hmem x hx with hin | hin
      · simp at hin
        rw [hin]
        simp
      · exact List.mem_cons_of_mem a hin

theorem findIdxFrom_bound {α : Type} {p : α → Bool} :
    ∀ (l : List α) (i j : Nat), findIdxFrom p l i = some j → i ≤ j ∧ j < i + l.length := by
  intro l
  induction l with
  | nil => intro i j h; simp [findIdxFrom] at h
  | cons x xs ih =>
    intro i j h
    unfold findIdxFrom at h
    cases hp : p x with
    | true =>
      rw [hp] at h
      simp at h
      simp [← h]
    | false =>
      rw [hp] at h
      simp at h
      have := ih (i + 1) j h
      constructor
      · omega
      · simp only [List.length_cons]
        omega

theorem enumIdx_mem_bound {α : Type} :
    ∀ (l : List α) (n i : Nat) (x : α), (i, x) ∈ enumIdx n l → n ≤ i ∧ i < n + l.length := by
  intro l
  induction l with
  | nil => intro n i x h; cases h
  | cons y ys ih =>
    intro n i x h
    rcases List.mem_cons.mp h with he | hm
    · have : i = n := congrArg Prod.fst he
      simp [this]
    · have := ih (n + 1) i x hm
      constructor
      · omega
      · simp only [List.length_cons]
        omega

theorem dominantRows_lt (rows : List Row) :
    ∀ i ∈ dominantRowsOf rows, i < rows.length := by
  intro i hi
  unfold dominantRowsOf at hi
  obtain ⟨q, hmem, hif⟩ := List.mem_filterMap.mp hi
  have hq : q.1 = i := by
    by_cases hc : q.2 = dominantPatternOf rows
    · rw [if_pos hc] at hif
      exact Option.some.inj hif
    · rw [if_neg hc] at hif
      cases hif
  have hb := enumIdx_mem_bound (rowPatterns rows) 0 q.1 q.2 (by
    cases q
    exact hmem)
  have hlen : (rowPatterns rows).length = rows.length := by
    unfold rowPatterns
    simp
  omega

theorem domGroup_headD_lt (rows : List Row) (hne : rows ≠ []) :
    (dominantGroupOf rows).headD 0 < rows.length := by
  cases hg : dominantGroupOf rows with
  | nil =>
    simpa using List.length_pos.mpr hne
  | cons a t =>
    simp only [List.headD]
    have ha : a ∈ longest_contiguous_group (dominantRowsOf rows) := by
      have he : dominantGroupOf rows = longest_contiguous_group (dominantRowsOf rows) := rfl
      rw [← he, hg]
      simp
    exact dominantRows_lt rows a (longest_contiguous_group_sub (dominantRowsOf rows) a ha)

theorem getD_findIdxFrom_lt (p : Row → Bool) (rows : List Row) (d : Nat)
    (hd : d < rows.length) : (findIdxFrom p rows 0).getD d < rows.length := by
  cases hf : findIdxFrom p rows 0 with
  | none => simpa using hd
  | some j =>
    have := findIdxFrom_bound rows 0 j hf
    simpa using this.2

theorem layoutStart_lt (rows : List Row) (hne : rows ≠ []) :
    layoutStartOf rows < rows.length := by
  unfold layoutStartOf
  exact getD_findIdxFrom_lt _ rows _ (domGroup_headD_lt rows hne)

/-- Claim C1 fixture: three 2-cell rows (the dominant pattern, with a data
signal already in row 0) followed by a dense 9-cell row.  The dense row
pushes the layout start to index 3 while the data start stays at 0. -/
def c1DataRow (ri : Nat) (t1 t2 : String) : Row :=
  mkRow ri [mkCell ri 0 0 1 none t1, mkCell ri 1 1 1 none t2]

def c1DenseRow : Row :=
  mkRow 3 ((List.range 9).map (fun k => mkCell 3 k (k : Int) 1 none ("")))

def c1Rows : List Row :=
  [c1DataRow 0 ("12") ("34"), c1DataRow 1 ("ab") ("cd"),
   c1DataRow 2 ("ef") ("gh"), c1DenseRow]

/-- Claim C1 counterexample: on this table the layout start row (3, the
first dense row) lies after the data start row (0, the first
dominant-pattern row with a data signal), so `metadata_rows` and
`data_rows` both equal `[0, 1, 2]` - the three returned ranges are not
pairwise disjoint. -/
theorem claim_C1_counterexample :
    (infer_table_sections c1Rows).metadata_rows = [0, 1, 2] ∧
    (infer_table_sections c1Rows).data_rows = [0, 1, 2] ∧
    0 ∈ (infer_table_sections c1Rows).metadata_rows ∧
    0 ∈ (infer_table_sections c1Rows).data_rows := by
  decide

/-- Claim C1 (amended): for every non-empty resolved row sequence the
returned ranges follow the source's formulas - `metadata_rows` is
`[0, layout_start)`, `header_rows` is `[layout_start, data_start)` (empty
when `data_start ≤ layout_start`), `data_rows` is the contiguous
dominant-run indices at or after `data_start` - and each of the three is
contiguous-or-empty; `header_rows` is disjoint from both other ranges, but
`metadata_rows` and `data_rows` are only guaranteed disjoint when
`layout_start ≤ data_start` (the counterexample violates it otherwise). -/
theorem claim_C1_amended (rows : List Row) (hne : rows ≠ []) :
    (infer_table_sections rows).metadata_rows = List.range (layoutStartOf rows) ∧
    (infer_table_sections rows).header_rows =
      List.range' (layoutStartOf rows) (dataStartOf rows - layoutStartOf rows) ∧
    (infer_table_sections rows).data_rows =
      (dominantGroupOf rows).filter (fun i => decide (dataStartOf rows ≤ i)) ∧
    isContigRun (infer_table_sections rows).metadata_rows = true ∧
    isContigRun (infer_table_sections rows).header_rows = true ∧
    isContigRun (infer_table_sections rows).data_rows = true ∧
    (∀ i ∈ (infer_table_sections rows).header_rows,
      i ∉ (infer_table_sections rows).metadata_rows) ∧
    (∀ i ∈ (infer_table_sections rows).data_rows,
      i ∉ (infer_table_sections rows).header_rows) ∧
    (layoutStartOf rows ≤ dataStartOf rows →
      ∀ i ∈ (infer_table_sections rows).data_rows,
        i ∉ (infer_table_sections rows).metadata_rows) := by
  have hre : rows.isEmpty = false := by
    cases rows with
    | nil => exact absurd rfl hne
    | cons r t => rfl
  have hlt : layoutStartOf rows < rows.length := layoutStart_lt rows hne
  have hmin : min (layoutStartOf rows) rows.length = layoutStartOf rows :=
    Nat.min_eq_left (le_of_lt hlt)
  have hmeta : (infer_table_sections rows).metadata_rows = List.range (layoutStartOf rows) := by
    simp only [infer_table_sections, hre, Bool.false_eq_true, if_false, hmin]
  have hhead : (infer_table_sections rows).header_rows =
      List.range' (layoutStartOf rows) (dataStartOf rows - layoutStartOf rows) := by
    simp only [infer_table_sections, hre, Bool.false_eq_true, if_false]
    by_cases hc : layoutStartOf rows < dataStartOf rows
    · rw [if_pos hc]
    · rw [if_neg hc]
      have : dataStartOf rows - layoutStartOf rows = 0 := by omega
      rw [this, List.range'_zero]
  have hdata : (infer_table_sections rows).data_rows =
      (dominantGroupOf rows).filter (fun i => decide (dataStartOf rows ≤ i)) := by
    simp only [infer_table_sections, hre, Bool.false_eq_true, if_false]
  refine ⟨hmeta, hhead, hdata, ?_, ?_, ?_, ?_, ?_, ?_⟩
  · rw [hmeta]
    exact isContigRun_range _
  · rw [hhead]
    exact isContigRun_range' _ _
  · rw [hdata]
    exact isContigRun_filter_ge _ _ (longest_contiguous_group_run _)
  · intro i hih
    rw [hhead] at hih
    rw [hmeta]
    have := List.mem_range'_1.mp hih
    intro hm
    have := List.mem_range.mp hm
    omega
  · intro i hid
    rw [hdata] at hid
    rw [hhead]
    have hge : dataStartOf rows ≤ i := by
      have := (List.mem_filter.mp hid).2
      exact of_decide_eq_true this
    intro hm
    have := List.mem_range'_1.mp hm
    omega
  · intro hle i hid
    rw [hdata] at hid
    rw [hmeta]
    have hge : dataStartOf rows ≤ i := by
      have := (List.mem_filter.mp hid).2
      exact of_decide_eq_true this
    intro hm
    have := List.mem_range.mp hm
    omega

/-- Claim C1 witness: the amended theorem applied to the concrete fixture
(which is also the disjointness counterexample, demonstrating that the
conditional clause is not vacuous). -/
theorem claim_C1_witness :
    c1Rows ≠ [] ∧
    ((infer_table_sections c1Rows).metadata_rows = List.range (layoutStartOf c1Rows) ∧
     (infer_table_sections c1Rows).header_rows =
       List.range' (layoutStartOf c1Rows) (dataStartOf c1Rows - layoutStartOf c1Rows) ∧
     (infer_table_sections c1Rows).data_rows =
       (dominantGroupOf c1Rows).filter (fun i => decide (dataStartOf c1Rows ≤ i)) ∧
     isContigRun (infer_table_sections c1Rows).metadata_rows = true ∧
     isContigRun (infer_table_sections c1Rows).header_rows = true ∧
     isContigRun (infer_table_sections c1Rows).data_rows = true ∧
     (∀ i ∈ (infer_table_sections c1Rows).header_rows,
       i ∉ (infer_table_sections c1Rows).metadata_rows) ∧
     (∀ i ∈ (infer_table_sections c1Rows).data_rows,
       i ∉ (infer_table_sections c1Rows).header_rows) ∧
     (layoutStartOf c1Rows ≤ dataStartOf c1Rows →
       ∀ i ∈ (infer_table_sections c1Rows).data_rows,
         i ∉ (infer_table_sections c1Rows).metadata_rows)) :=
  ⟨by decide, claim_C1_amended c1Rows (by decide)⟩

/-! ## Claim C2: the end-to-end title/header/data scenario -/

/-- Claim C2 fixture: a 6-row table - one full-width title cell, an 8-cell
single-span header row of non-data labels, four 8-cell data rows with two
numeric-looking values each. -/
def c2RowOf (ri : Nat) (ts : List String) : Row :=
  mkRow ri ((enumIdx 0 ts).map (fun q => mkCell ri q.1 (q.1 : Int) 1 none q.2))

def c2TitleRow : Row := mkRow 0 [mkCell 0 0 0 8 none ("Report Title")]

def c2HeaderRow : Row :=
  c2RowOf 1 ["Name", "Size", "Type", "Qty", "Note", "Unit", "Mark", "Desc"]

def c2DataRow (ri : Nat) : Row :=
  c2RowOf ri ["1", "2", "x", "x", "x", "x", "x", "x"]

def c2Rows : List Row :=
  [c2TitleRow, c2HeaderRow, c2DataRow 2, c2DataRow 3, c2DataRow 4, c2DataRow 5]

/-- Claim C2 counterexample: the fixture satisfies every hypothesis of the
claim (full-width row 0; dense non-data header row 1; rows 2-5 repeating
the header's span pattern with a data signal), and the sections come out
as the claim states - but the confidence is round(5/6, 3) = 0.833 (five of
the SIX rows match the dominant pattern), not the claim's 4/5 = 0.8. -/
theorem claim_C2_counterexample :
    rowPatterns c2Rows =
      [[(8 : Int)], List.replicate 8 1, List.replicate 8 1, List.replicate 8 1,
       List.replicate 8 1, List.replicate 8 1] ∧
    has_data_signal c2HeaderRow = false ∧
    has_data_signal (c2DataRow 2) = true ∧
    has_data_signal (c2DataRow 3) = true ∧
    has_data_signal (c2DataRow 4) = true ∧
    has_data_signal (c2DataRow 5) = true ∧
    (infer_table_sections c2Rows).metadata_rows = [0] ∧
    (infer_table_sections c2Rows).header_rows = [1] ∧
    (infer_table_sections c2Rows).data_rows = [2, 3, 4, 5] ∧
    (infer_table_sections c2Rows).confidence = mkRat 833 1000 ∧
    (infer_table_sections c2Rows).confidence ≠ mkRat 4 5 := by
  decide

/-- Claim C2 (amended): for every 6-row table whose row 0 is a single cell
spanning all `m` columns (`m ≥ 8` so that the header meets the density
threshold), whose row 1 has `m` single-span cells without a data signal,
and whose rows 2-5 repeat the single-span pattern with row 2 carrying a
data signal, section inference yields `metadata_rows = [0]`,
`header_rows = [1]`, `data_rows = [2, 3, 4, 5]`, and
`confidence = 0.833` (5 of the 6 rows match the dominant pattern:
`round(5/6, 3)`), not 0.8. -/
theorem claim_C2_amended (m : Nat) (hm : 8 ≤ m) (r0 r1 r2 r3 r4 r5 : Row)
    (h0 : rowPattern r0 = [(m : Int)])
    (h1 : rowPattern r1 = List.replicate m 1)
    (h2 : rowPattern r2 = List.replicate m 1)
    (h3 : rowPattern r3 = List.replicate m 1)
    (h4 : rowPattern r4 = List.replicate m 1)
    (h5 : rowPattern r5 = List.replicate m 1)
    (hs1 : has_data_signal r1 = false)
    (hs2 : has_data_signal r2 = true) :
    (infer_table_sections [r0, r1, r2, r3, r4, r5]).metadata_rows = [0] ∧
    (infer_table_sections [r0, r1, r2, r3, r4, r5]).header_rows = [1] ∧
    (infer_table_sections [r0, r1, r2, r3, r4, r5]).data_rows = [2, 3, 4, 5] ∧
    (infer_table_sections [r0, r1, r2, r3, r4, r5]).confidence = mkRat 833 1000 := by
  set p : List Int := List.replicate m 1 with hp
  have hne1 : [(m : Int)] ≠ p := by
    intro hc
    have := congrArg List.length hc
    simp [hp] at this
    omega
  have hpats : rowPatterns [r0, r1, r2, r3, r4, r5] = [[(m : Int)], p, p, p, p, p] := by
    simp only [rowPatterns, List.map]
    rw [h0, h1, h2, h3, h4, h5]
  have hcnt_p : List.count p [[(m : Int)], p, p, p, p, p] = 5 := by
    simp [List.count_cons, Ne.symm hne1]
  have hcnt_m : List.count [(m : Int)] [[(m : Int)], p, p, p, p, p] = 1 := by
    simp [List.count_cons, hne1]
  have hdom : dominantPatternOf [r0, r1, r2, r3, r4, r5] = p := by
    unfold dominantPatternOf
    rw [hpats]
    simp only [List.headD, List.foldl]
    simp [hcnt_m, hcnt_p]
  have hcount : dominantCountOf [r0, r1, r2, r3, r4, r5] = 5 := by
    unfold dominantCountOf
    rw [hpats, hdom]
    exact hcnt_p
  have hrowsidx : dominantRowsOf [r0, r1, r2, r3, r4, r5] = [1, 2, 3, 4, 5] := by
    unfold dominantRowsOf
    rw [hpats]
    simp [enumIdx, hdom, hne1]
  have hgroup : dominantGroupOf [r0, r1, r2, r3, r4, r5] = [1, 2, 3, 4, 5] := by
    unfold dominantGroupOf
    rw [hrowsidx]
    decide
  have hlen0 : r0.cells.length = 1 := by
    have := congrArg List.length h0
    simpa [rowPattern] using this
  have hlen1 : r1.cells.length = m := by
    have := congrArg List.length h1
    simpa [rowPattern, hp] using this
  have hc0 : ¬(max 8 (m * 6 / 10) ≤ 1) := by
    have := Nat.le_max_left 8 (m * 6 / 10)
    omega
  have hc1 : max 8 (m * 6 / 10) ≤ m := by
    apply Nat.max_le.mpr
    constructor
    · exact hm
    · omega
  have hlayout : layoutStartOf [r0, r1, r2, r3, r4, r5] = 1 := by
    unfold layoutStartOf
    simp only [hdom, denseThreshold, hp, List.length_replicate]
    simp [findIdxFrom, hlen0, hlen1, hc0, hc1]
  have hdataS : dataStartOf [r0, r1, r2, r3, r4, r5] = 2 := by
    unfold dataStartOf
    rw [hgroup]
    have hg1 : ([r0, r1, r2, r3, r4, r5] : List Row).getD 1 default = r1 := rfl
    have hg2 : ([r0, r1, r2, r3, r4, r5] : List Row).getD 2 default = r2 := rfl
    simp [List.find?, hg1, hg2, hs1, hs2]
  have hlen6 : ([r0, r1, r2, r3, r4, r5] : List Row).length = 6 := rfl
  simp only [infer_table_sections, List.isEmpty, Bool.false_eq_true, if_false,
    hlayout, hdataS, hgroup, hcount, hlen6]
  refine ⟨by decide, by decide, by decide, by decide⟩

/-- Claim C2 witness: the amended theorem applied to the concrete fixture
with `m = 8`. -/
theorem claim_C2_witness :
    (8 ≤ 8 ∧
     rowPattern c2TitleRow = [(8 : Int)] ∧
     rowPattern c2HeaderRow = List.replicate 8 1 ∧
     rowPattern (c2DataRow 2) = List.replicate 8 1 ∧
     has_data_signal c2HeaderRow = false ∧
     has_data_signal (c2DataRow 2) = true) ∧
    ((infer_table_sections
        [c2TitleRow, c2HeaderRow, c2DataRow 2, c2DataRow 3, c2DataRow 4,
         c2DataRow 5]).metadata_rows = [0] ∧
     (infer_table_sections
        [c2TitleRow, c2HeaderRow, c2DataRow 2, c2DataRow 3, c2DataRow 4,
         c2DataRow 5]).header_rows = [1] ∧
     (infer_table_sections
        [c2TitleRow, c2HeaderRow, c2DataRow 2, c2DataRow 3, c2DataRow 4,
         c2DataRow 5]).data_rows = [2, 3, 4, 5] ∧
     (infer_table_sections
        [c2TitleRow, c2HeaderRow, c2DataRow 2, c2DataRow 3, c2DataRow 4,
         c2DataRow 5]).confidence = mkRat 833 1000) :=
  ⟨⟨by decide, by decide, by decide, by decide, by decide, by decide⟩,
   claim_C2_amended 8 (by decide) c2TitleRow c2HeaderRow (c2DataRow 2) (c2DataRow 3)
     (c2DataRow 4) (c2DataRow 5) (by decide) (by decide) (by decide) (by decide)
     (by decide) (by decide) (by decide) (by decide)⟩

end Docx
